import Mathlib

set_option maxHeartbeats 1000000
set_option maxRecDepth 8000

/-!
Shallow embedding of `src/memcheck.cpp` (an LLVM module pass that counts
load/store instructions and the bytes they touch per user-defined function,
and serializes the results to a CSV file and a JSON file).

Modelling conventions:
* Machine strings (`std::string`, stream contents) are `String` or `List Char`.
* `llvm::Type` is an opaque token (`Nat`); `DataLayout::getTypeAllocSize`
  is an arbitrary function `Nat → Nat` carried by the module.
* Function identity (the `Function *` pointer used as a map key) is a `Nat` id.
* `llvm::demangle` is an external library function; it is kept as an
  arbitrary parameter `dm : String → String` throughout.
* The diagnostic stream `errs()` is modelled as the list of emitted chunks.
* File contents are modelled as the character lists written to them.
-/

namespace Memcheck

/-- A target type token; the module's data layout maps it to an allocation
size in bytes (models `llvm::Type` as consumed through
`DataLayout::getTypeAllocSize`). -/
abbrev LLVMType := Nat

/-- One LLVM instruction, to the extent the pass inspects it:
a load records the loaded value's type (`load->getType()`); a store records
both the stored value's type (`store->getValueOperand()->getType()`) and the
pointer operand's type (which the pass must NOT use for byte accounting);
a call records the resolved callee's identity (`none` for indirect calls);
everything else is `other`. -/
inductive Instruction where
  | load (ty : LLVMType)
  | store (valueTy : LLVMType) (pointerTy : LLVMType)
  | call (callee : Option Nat)
  | other
deriving DecidableEq

/-- Debug-info file metadata (`llvm::DIFile`): a directory and a filename. -/
structure DIFile where
  directory : String
  filename : String
deriving DecidableEq

/-- An LLVM function as the pass sees it: an identity (the pointer),
its linkage name (`F.getName()`), its body as a list of basic blocks
(empty list = a declaration without a body), and the optional
`DISubprogram` debug info, whose `getFile()` may itself be null. -/
structure Function where
  id : Nat
  name : String
  body : List (List Instruction)
  subprogram : Option (Option DIFile)
deriving DecidableEq

/-- Models `F.isDeclaration()`: a function with no basic blocks. -/
def Function.isDeclaration (F : Function) : Bool := F.body.isEmpty

/-- An LLVM module: its function list in declaration order, and its target
data layout (the type-size oracle). -/
structure Module where
  functions : List Function
  dataLayout : LLVMType → Nat

/-- The per-function result record (`struct FunctionAnalysis`,
src/memcheck.cpp lines 38-44). -/
structure FunctionAnalysis where
  mangledName : String
  demangledName : String
  loads : Nat := 0
  stores : Nat := 0
  bytes : Nat := 0
deriving DecidableEq

/-- One step of the instruction loop of `analyzeFunction`
(src/memcheck.cpp lines 71-80): a load bumps `loads` and adds the
allocation size of the loaded value's type; a store bumps `stores` and adds
the allocation size of the stored value's type (not the pointer's);
all other instructions are ignored. -/
def accountInstr (dl : LLVMType → Nat) (r : FunctionAnalysis) (i : Instruction) :
    FunctionAnalysis :=
  match i with
  | .load ty => { r with loads := r.loads + 1, bytes := r.bytes + dl ty }
  | .store valueTy _ => { r with stores := r.stores + 1, bytes := r.bytes + dl valueTy }
  | .call _ => r
  | .other => r

/-- The cache-miss body of `analyzeFunction` (src/memcheck.cpp lines 65-82):
populate the name fields, then run the nested block/instruction loops. -/
def computeAnalysis (dm : String → String) (dl : LLVMType → Nat) (F : Function) :
    FunctionAnalysis :=
  F.body.foldl (fun r bb => bb.foldl (accountInstr dl) r)
    { mangledName := F.name, demangledName := dm F.name }

/-- The analysis cache `std::map<Function *, FunctionAnalysis>`, keyed by
function identity. -/
abbrev AnalysisMap := List (Nat × FunctionAnalysis)

/-- Lookup by function identity (models `analysisMap.find(&F)`). -/
def mapFind (m : AnalysisMap) (k : Nat) : Option FunctionAnalysis :=
  match m with
  | [] => none
  | (k', v) :: rest => if k' = k then some v else mapFind rest k

/-- `memcheck::analyzeFunction` (src/memcheck.cpp lines 57-87): answer from
the cache when the function identity is present, otherwise compute the
analysis, store it, and return it. -/
def analyzeFunction (dm : String → String) (dl : LLVMType → Nat) (F : Function)
    (m : AnalysisMap) : FunctionAnalysis × AnalysisMap :=
  match mapFind m F.id with
  | some r => (r, m)
  | none =>
    let result := computeAnalysis dm dl F
    (result, (F.id, result) :: m)

/-- Decides whether the char list `p` is a prefix of the char list `s`
(models `llvm::StringRef::startswith`, a plain character-wise prefix test). -/
def prefixB : List Char → List Char → Bool
  | [], _ => true
  | _ :: _, [] => false
  | p :: ps, s :: ss => p = s && prefixB ps ss

/-- Models `llvm::sys::path::append` (POSIX style): appends the component,
inserting a separator unless the path is empty or already ends in one. -/
def pathAppend (dir f : String) : String :=
  if dir.data = [] then f
  else if dir.data.getLast? = some '/' then dir ++ f
  else dir ++ "/" ++ f

/-- The one-line diagnostic emitted when `$SCOP_ROOT` is not set
(src/memcheck.cpp line 108). -/
def errLine : String := "Error: $SCOP_ROOT environment variable is not set.\n"

/-- `memcheck::isUserDefinedFunction` (src/memcheck.cpp lines 103-134).
`env` is the value of the `$SCOP_ROOT` environment variable (`none` when
unset). Returns the classification together with the diagnostic chunks the
call writes to `errs()`. -/
def isUserDefinedFunction (env : Option String) (F : Function) :
    Bool × List String :=
  match env with
  | none => (false, [errLine])
  | some projectRoot =>
    match F.subprogram with
    | some subprog =>
      match subprog with
      | some file =>
        (prefixB projectRoot.data (pathAppend file.directory file.filename).data, [])
      | none => (false, [])
    | none => (false, [])

/-- Decimal digits of a natural number, most significant first
(models how C++ `operator<<` prints a `size_t`). -/
def digitChar (d : Nat) : Char :=
  if d = 0 then '0' else if d = 1 then '1' else if d = 2 then '2'
  else if d = 3 then '3' else if d = 4 then '4' else if d = 5 then '5'
  else if d = 6 then '6' else if d = 7 then '7' else if d = 8 then '8'
  else if d = 9 then '9' else '?'

/-- Decimal digits, fuel-bounded so that evaluation is structural; the
fuel used by `natDigits` is always sufficient. -/
def natDigitsAux : Nat → Nat → List Char
  | 0, _ => []
  | fuel + 1, n =>
    if n < 10 then [digitChar n]
    else natDigitsAux fuel (n / 10) ++ [digitChar (n % 10)]

/-- Decimal representation of a natural number as a char list. -/
def natDigits (n : Nat) : List Char := natDigitsAux (n + 1) n

/-- Decimal representation of a natural number as a `String`. -/
def natToString (n : Nat) : String := String.mk (natDigits n)

/-- `memcheck::printFunctionAnalysis` (src/memcheck.cpp lines 141-151):
the block written to `errs()` for one analyzed function, modelled as one
diagnostic chunk. -/
def printFunctionAnalysis (a : FunctionAnalysis) : String :=
  "-------------------------------------------\n" ++
  " Function Name (Demangled): " ++ a.demangledName ++ "\n" ++
  " Function Name (Mangled): " ++ a.mangledName ++ "\n;" ++
  "-------------------------------------------\n" ++
  "  'Loads': " ++ natToString a.loads ++ "\n" ++
  "  'Stores': " ++ natToString a.stores ++ "\n" ++
  "  'Bytes': " ++ natToString a.bytes ++ "\n" ++
  "-------------------------------------------\n" ++ "\n"

/-- The quote-doubling loop of `escapeCSV` (src/memcheck.cpp lines 162-166):
every `"` becomes `""`, left to right. -/
def escapeQuotesL : List Char → List Char
  | [] => []
  | c :: rest => if c = '"' then '"' :: '"' :: escapeQuotesL rest else c :: escapeQuotesL rest

/-- `memcheck::escapeCSV` (src/memcheck.cpp lines 158-171): a cell
containing a comma or a double quote has its quotes doubled and is wrapped
in double quotes; any other cell is returned unchanged. -/
def escapeCSV (cell : String) : String :=
  if (',' ∈ cell.data) ∨ ('"' ∈ cell.data) then
    String.mk ('"' :: (escapeQuotesL cell.data ++ ['"']))
  else cell

/-- The CSV header row written on first initialization
(src/memcheck.cpp line 185). -/
def csvHeader : String :=
  "'Function Name (Demangled)','Function Name (Mangled)','Loads','Stores','Bytes' \n"

/-- The process-level state of the CSV writer: the function-local
`static bool isFileInitialized` and the contents of the (truncated on open)
output file. This state persists across runs within one process. -/
structure CSVState where
  initialized : Bool
  content : List Char
deriving DecidableEq

/-- CSV writer state at process start: not initialized, nothing written. -/
def csvInit : CSVState := { initialized := false, content := [] }

/-- One CSV data row (src/memcheck.cpp lines 189-193). -/
def csvRowData (a : FunctionAnalysis) : List Char :=
  (escapeCSV a.demangledName).data ++ ',' :: (escapeCSV a.mangledName).data ++
  ',' :: natDigits a.loads ++ ',' :: natDigits a.stores ++
  ',' :: natDigits a.bytes ++ ['\n']

/-- `memcheck::writeToCSV` (src/memcheck.cpp lines 179-194): on the first
call in the process, open (truncating) the file and write the header; then
append one data row. -/
def writeToCSV (st : CSVState) (a : FunctionAnalysis) : CSVState :=
  let st1 := if st.initialized then st
             else { initialized := true, content := csvHeader.data }
  { st1 with content := st1.content ++ csvRowData a }

/-- Left brace character (code point 123). -/
def lbrace : Char := Char.ofNat 123

/-- Right brace character (code point 125). -/
def rbrace : Char := Char.ofNat 125

/-- Double quote character. -/
def q : Char := '"'

/-- JSON record key for the demangled name. -/
def jsonKeyDemangled : String := "Function Name (Demangled)"

/-- JSON record key for the mangled name. -/
def jsonKeyMangled : String := "Function Name (Mangled)"

/-- JSON record key for the load count. -/
def jsonKeyLoads : String := "Loads"

/-- JSON record key for the store count. -/
def jsonKeyStores : String := "Stores"

/-- JSON record key for the byte count. -/
def jsonKeyBytes : String := "Bytes"

/-- The characters of the record opener written by `writeToJSON`:
two spaces, a left brace, and a newline. -/
def lbr : List Char := [' ', ' ', lbrace, '\n']

/-- The characters closing a record: newline, two spaces, right brace. -/
def ending : List Char := ['\n', ' ', ' ', rbrace]

/-- The characters of an emitted key: four spaces of indent, the quoted
key, a colon and a space. -/
def keyPart (key : String) : List Char :=
  [' ', ' ', ' ', ' '] ++ q :: key.data ++ [q, ':', ' ']

/-- The characters of an emitted string value: the raw bytes of the string
wrapped in double quotes. Note there is NO escaping of the content. -/
def strVal (s : String) : List Char := q :: s.data ++ [q]

/-- Separator between two fields of a record: comma, newline. -/
def sepNl : List Char := [',', '\n']

/-- The characters of one JSON record as built by the `jsonStream` of
`writeToJSON` (src/memcheck.cpp lines 209-216). -/
def jsonRecordData (a : FunctionAnalysis) : List Char :=
  lbr ++ keyPart jsonKeyDemangled ++ strVal a.demangledName ++ sepNl ++
  keyPart jsonKeyMangled ++ strVal a.mangledName ++ sepNl ++
  keyPart jsonKeyLoads ++ natDigits a.loads ++ sepNl ++
  keyPart jsonKeyStores ++ natDigits a.stores ++ sepNl ++
  keyPart jsonKeyBytes ++ natDigits a.bytes ++ ending

/-- `memcheck::writeToJSON` (src/memcheck.cpp lines 203-220): prepend a
",\n" separator unless this is the first record, then append the record. -/
def writeToJSON (json : List Char) (a : FunctionAnalysis) (isFirst : Bool) :
    List Char :=
  (if isFirst then json else json ++ [',', '\n']) ++ jsonRecordData a

/-- Bump the tally of one callee identity in the call-count map
(models `callCounts[calledFunction]++`). -/
def bumpCount (m : List (Nat × Nat)) (k : Nat) : List (Nat × Nat) :=
  match m with
  | [] => [(k, 1)]
  | (k', v) :: rest => if k' = k then (k', v + 1) :: rest else (k', v) :: bumpCount rest k

/-- One step of the call-count scan (src/memcheck.cpp lines 238-246):
direct calls are tallied by callee identity, everything else is skipped. -/
def countCallsInstr (m : List (Nat × Nat)) (i : Instruction) : List (Nat × Nat) :=
  match i with
  | .call (some callee) => bumpCount m callee
  | _ => m

/-- The call-count table built at the start of `run`
(src/memcheck.cpp lines 230-248). It is computed but never consumed. -/
def buildCallCounts (M : Module) : List (Nat × Nat) :=
  M.functions.foldl (fun m F => F.body.foldl (fun m' bb => bb.foldl countCallsInstr m') m) []

/-- The state threaded through one `run`: the call-count table, the
diagnostic stream chunks, the (process-persistent) CSV writer state, the
JSON file contents, and the `isFirstFunction` flag. -/
structure RunState where
  callCounts : List (Nat × Nat)
  diag : List String
  csv : CSVState
  json : List Char
  isFirst : Bool
deriving DecidableEq

/-- The per-function body of the main loop of `run`
(src/memcheck.cpp lines 254-273): classify (which may emit a diagnostic),
and if the function is user-defined and has a body, analyze it through a
FRESH cache map (the `analysisMap` local is declared inside the loop),
print the diagnostic block, and write the CSV row and the JSON record. -/
def runStep (dm : String → String) (dl : LLVMType → Nat) (env : Option String)
    (st : RunState) (F : Function) : RunState :=
  if (isUserDefinedFunction env F).1 && !F.isDeclaration then
    { st with
      diag := st.diag ++ (isUserDefinedFunction env F).2 ++
        [printFunctionAnalysis (analyzeFunction dm dl F []).1],
      csv := writeToCSV st.csv (analyzeFunction dm dl F []).1,
      json := writeToJSON st.json (analyzeFunction dm dl F []).1 st.isFirst,
      isFirst := false }
  else { st with diag := st.diag ++ (isUserDefinedFunction env F).2 }

/-- `memcheck::run` (src/memcheck.cpp lines 229-278): build the call-count
table, open the JSON file with its opening bracket, loop over all functions
of the module, and write the closing bracket. The CSV writer state `csv0`
is the process-persistent static state at the start of this run. -/
def run (dm : String → String) (env : Option String) (M : Module)
    (csv0 : CSVState) : RunState :=
  let callCounts := buildCallCounts M
  let st0 : RunState :=
    { callCounts := callCounts, diag := [], csv := csv0,
      json := ['[', '\n'], isFirst := true }
  let stF := M.functions.foldl (runStep dm M.dataLayout env) st0
  { stF with json := stF.json ++ ['\n', ']'] }

/-!
A reference JSON syntax checker, used to state what "syntactically valid"
means for the structured-record output artifact. It is an ordinary
recursive-descent parser over a character list, with a fuel argument for
termination (the fuel supplied by `parseJson` is linear in the input length
and ample for any input the grammar accepts).
-/

/-- JSON whitespace. -/
def isWsChar (c : Char) : Bool :=
  c.toNat = 32 || c.toNat = 10 || c.toNat = 9 || c.toNat = 13

/-- Skip leading JSON whitespace. -/
def skipWs : List Char → List Char
  | [] => []
  | c :: cs => if isWsChar c then skipWs cs else c :: cs

/-- ASCII decimal digit. -/
def isDigitChar (c : Char) : Bool := 48 ≤ c.toNat && c.toNat ≤ 57

/-- Numeric value of an ASCII decimal digit. -/
def digitVal (c : Char) : Nat := c.toNat - 48

/-- ASCII hexadecimal digit. -/
def isHexChar (c : Char) : Bool :=
  (48 ≤ c.toNat && c.toNat ≤ 57) || (97 ≤ c.toNat && c.toNat ≤ 102) ||
  (65 ≤ c.toNat && c.toNat ≤ 70)

/-- Decode a two-character escape (the char after the backslash). -/
def unescapeChar (e : Char) : Char :=
  if e = 'b' then Char.ofNat 8 else if e = 'f' then Char.ofNat 12
  else if e = 'n' then '\n' else if e = 'r' then '\r'
  else if e = 't' then '\t' else e

/-- Prepend a decoded character to the content of a successful
string-body parse. -/
def consBody (c : Char) : Option (List Char × List Char) → Option (List Char × List Char)
  | some (b, r) => some (c :: b, r)
  | none => none

/-- Parse the body of a JSON string literal, after the opening quote:
stops at the closing quote, handles the escape forms of RFC 8259, rejects
unescaped control characters. Returns the decoded content (the `\uXXXX`
form is decoded approximately, which does not affect acceptance) and the
input remaining after the closing quote. -/
def parseStringBody : List Char → Option (List Char × List Char)
  | [] => none
  | c :: cs =>
    if c = '"' then some ([], cs)
    else if c = '\\' then
      match cs with
      | [] => none
      | e :: cs2 =>
        if e = '"' || e = '\\' || e = '/' || e = 'b' || e = 'f' || e = 'n' ||
           e = 'r' || e = 't' then
          consBody (unescapeChar e) (parseStringBody cs2)
        else if e = 'u' then
          match cs2 with
          | h1 :: h2 :: h3 :: h4 :: cs3 =>
            if isHexChar h1 && isHexChar h2 && isHexChar h3 && isHexChar h4 then
              consBody e (parseStringBody cs3)
            else none
          | _ => none
        else none
    else if c.toNat < 32 then none
    else consBody c (parseStringBody cs)

/-- Consume a maximal run of decimal digits, accumulating their value. -/
def parseDigitsAux : List Char → Nat → Nat × List Char
  | [], acc => (acc, [])
  | c :: cs, acc =>
    if isDigitChar c then parseDigitsAux cs (acc * 10 + digitVal c)
    else (acc, c :: cs)

/-- Parse an optional JSON fraction part. -/
def parseFracPart (cs : List Char) : Option (List Char) :=
  match cs with
  | [] => some []
  | c :: rest =>
    if c = '.' then
      match rest with
      | [] => none
      | d :: rest2 =>
        if isDigitChar d then some (parseDigitsAux rest2 0).2 else none
    else some (c :: rest)

/-- Parse an optional JSON exponent part. -/
def parseExpPart (cs : List Char) : Option (List Char) :=
  match cs with
  | [] => some []
  | c :: rest =>
    if c = 'e' ∨ c = 'E' then
      match (match rest with
             | s :: r2 => if s = '+' ∨ s = '-' then r2 else rest
             | [] => rest) with
      | [] => none
      | d :: r3 =>
        if isDigitChar d then some (parseDigitsAux r3 0).2 else none
    else some (c :: rest)

/-- After the integer part with value `n`, parse the optional fraction and
exponent. Only the integer magnitude is retained as the value. -/
def parseFracExp (n : Nat) (cs : List Char) : Option (Nat × List Char) :=
  match parseFracPart cs with
  | none => none
  | some cs1 =>
    match parseExpPart cs1 with
    | none => none
    | some cs2 => some (n, cs2)

/-- Parse the unsigned body of a JSON number: `0`, or a nonzero digit
followed by more digits (no leading zeros), then fraction and exponent. -/
def parseNumBody : List Char → Option (Nat × List Char)
  | [] => none
  | c :: rest =>
    if c = '0' then
      match rest with
      | [] => parseFracExp 0 []
      | d :: _ => if isDigitChar d then none else parseFracExp 0 rest
    else if isDigitChar c then
      parseFracExp (parseDigitsAux rest (digitVal c)).1 (parseDigitsAux rest (digitVal c)).2
    else none

/-- Parse a JSON number, allowing a leading minus. Only the integer
magnitude is retained as the value. -/
def parseNumber (cs : List Char) : Option (Nat × List Char) :=
  match cs with
  | [] => none
  | c :: rest => if c = '-' then parseNumBody rest else parseNumBody (c :: rest)

/-- Abstract JSON values produced by the checker. Strings and object keys
are kept as character lists. -/
inductive Json where
  | str (s : List Char)
  | num (n : Nat)
  | bool (b : Bool)
  | null
  | arr (items : List Json)
  | obj (members : List (List Char × Json))

/-- The keys of a JSON object value (in order); `[]` for non-objects. -/
def objKeys : Json → List (List Char)
  | .obj members => members.map (fun m => m.1)
  | _ => []

mutual

/-- Parse one JSON value (fuel-bounded recursive descent). -/
def parseValue : Nat → List Char → Option (Json × List Char)
  | 0, _ => none
  | fuel + 1, cs =>
    match skipWs cs with
    | [] => none
    | c :: rest =>
      if c = '"' then
        match parseStringBody rest with
        | some (b, r) => some (.str b, r)
        | none => none
      else if c = '[' then
        match skipWs rest with
        | [] => none
        | c2 :: r2 =>
          if c2 = ']' then some (.arr [], r2)
          else
            match parseItems fuel (c2 :: r2) with
            | some (items, r3) => some (.arr items, r3)
            | none => none
      else if c = lbrace then
        match skipWs rest with
        | [] => none
        | c2 :: r2 =>
          if c2 = rbrace then some (.obj [], r2)
          else
            match parseMembers fuel (c2 :: r2) with
            | some (members, r3) => some (.obj members, r3)
            | none => none
      else if c = 't' then
        match rest with
        | 'r' :: 'u' :: 'e' :: r2 => some (.bool true, r2)
        | _ => none
      else if c = 'f' then
        match rest with
        | 'a' :: 'l' :: 's' :: 'e' :: r2 => some (.bool false, r2)
        | _ => none
      else if c = 'n' then
        match rest with
        | 'u' :: 'l' :: 'l' :: r2 => some (.null, r2)
        | _ => none
      else
        match parseNumber (c :: rest) with
        | some (n, r) => some (.num n, r)
        | none => none

/-- Parse the non-empty item list of a JSON array, up to and including the
closing bracket. -/
def parseItems : Nat → List Char → Option (List Json × List Char)
  | 0, _ => none
  | fuel + 1, cs =>
    match parseValue fuel cs with
    | none => none
    | some (v, r) =>
      match skipWs r with
      | [] => none
      | c :: r2 =>
        if c = ',' then
          match parseItems fuel r2 with
          | some (vs, r3) => some (v :: vs, r3)
          | none => none
        else if c = ']' then some ([v], r2)
        else none

/-- Parse the non-empty member list of a JSON object, up to and including
the closing brace. -/
def parseMembers : Nat → List Char → Option (List (List Char × Json) × List Char)
  | 0, _ => none
  | fuel + 1, cs =>
    match skipWs cs with
    | [] => none
    | c :: r =>
      if c = '"' then
        match parseStringBody r with
        | none => none
        | some (k, r1) =>
          match skipWs r1 with
          | [] => none
          | c3 :: r2 =>
            if c3 = ':' then
              match parseValue fuel r2 with
              | none => none
              | some (v, r3) =>
                match skipWs r3 with
                | [] => none
                | c4 :: r4 =>
                  if c4 = ',' then
                    match parseMembers fuel r4 with
                    | some (ms, r5) => some ((k, v) :: ms, r5)
                    | none => none
                  else if c4 = rbrace then some ([(k, v)], r4)
                  else none
            else none
      else none

end

/-- Top-level JSON syntax check: parse one value and require that only
whitespace remains. The fuel is linear in the input length, which is ample
for any input the grammar accepts. -/
def parseJson (cs : List Char) : Option Json :=
  match parseValue (8 * cs.length + 16) cs with
  | some (v, r) =>
    match skipWs r with
    | [] => some v
    | _ => none
  | none => none

/-- The abstract JSON value of one emitted record: an object with the five
required keys, the name fields as strings, the counts as numbers. -/
def recordJson (a : FunctionAnalysis) : Json :=
  .obj [(jsonKeyDemangled.data, .str a.demangledName.data),
        (jsonKeyMangled.data, .str a.mangledName.data),
        (jsonKeyLoads.data, .num a.loads),
        (jsonKeyStores.data, .num a.stores),
        (jsonKeyBytes.data, .num a.bytes)]

/-!
Derived notions used to state the claims, and concrete inputs used by
counterexamples and witnesses.
-/

/-- Whether `run` analyzes and emits this function: classified user-defined
and not a declaration (src/memcheck.cpp line 256). -/
def emitted (env : Option String) (F : Function) : Bool :=
  (isUserDefinedFunction env F).1 && !F.isDeclaration

/-- The analysis records emitted by one run over the functions `fs`, in
order. -/
def analyzedRecsList (dm : String → String) (dl : LLVMType → Nat)
    (env : Option String) (fs : List Function) : List FunctionAnalysis :=
  (fs.filter (emitted env)).map (computeAnalysis dm dl)

/-- The analysis records emitted by one run over module `M`, in order. -/
def analyzedRecs (dm : String → String) (env : Option String) (M : Module) :
    List FunctionAnalysis :=
  analyzedRecsList dm M.dataLayout env M.functions

/-- True when the instruction is a load. -/
def isLoadInstr : Instruction → Bool
  | .load _ => true
  | _ => false

/-- True when the instruction is a store. -/
def isStoreInstr : Instruction → Bool
  | .store _ _ => true
  | _ => false

/-- The byte contribution of one instruction: the allocation size of the
loaded value's type for a load, of the stored value's type for a store,
zero otherwise. -/
def instrBytes (dl : LLVMType → Nat) : Instruction → Nat
  | .load ty => dl ty
  | .store valueTy _ => dl valueTy
  | _ => 0

/-- The instruction stream of a function: its basic blocks joined in
order. -/
def instrsOf (F : Function) : List Instruction := F.body.flatten

/-- Quote-doubling as a per-character rule: a double quote becomes two,
everything else is kept. -/
def dupQuote (c : Char) : List Char := if c = '"' then ['"', '"'] else [c]

/-- The concatenated CSV data rows of a record list. -/
def csvRows : List FunctionAnalysis → List Char
  | [] => []
  | a :: rest => csvRowData a ++ csvRows rest

/-- The JSON text of the records after the first: each is preceded by the
",\n" separator. -/
def jsonTail : List FunctionAnalysis → List Char
  | [] => []
  | a :: rest => ',' :: '\n' :: jsonRecordData a ++ jsonTail rest

/-- The JSON text between the outer brackets: the first record bare, the
rest each preceded by the ",\n" separator. -/
def jsonBody : List FunctionAnalysis → List Char
  | [] => []
  | a :: rest => jsonRecordData a ++ jsonTail rest

/-- Join chunks with a separator between consecutive chunks and none after
the last. -/
def joinSep (sep : List Char) : List (List Char) → List Char
  | [] => []
  | [x] => x
  | x :: y :: rest => x ++ sep ++ joinSep sep (y :: rest)

/-- The diagnostic chunks one function contributes to a run: whatever the
classifier emits, then the per-function block when the function is
analyzed. -/
def diagOfF (dm : String → String) (dl : LLVMType → Nat) (env : Option String)
    (F : Function) : List String :=
  (isUserDefinedFunction env F).2 ++
  (if emitted env F then [printFunctionAnalysis (computeAnalysis dm dl F)] else [])

/-- The diagnostic chunks of a whole run, in order. -/
def diagOf (dm : String → String) (dl : LLVMType → Nat) (env : Option String) :
    List Function → List String
  | [] => []
  | F :: fs => diagOfF dm dl env F ++ diagOf dm dl env fs

/-- A character that may appear raw inside a JSON string literal: not a
double quote, not a backslash, not a control character. -/
def PlainChar (c : Char) : Prop := c.toNat ≠ 34 ∧ c.toNat ≠ 92 ∧ 32 ≤ c.toNat

/-- All characters of the list are plain. -/
def PlainL (l : List Char) : Prop := ∀ c ∈ l, PlainChar c

instance decPlainChar (c : Char) : Decidable (PlainChar c) :=
  inferInstanceAs (Decidable (c.toNat ≠ 34 ∧ c.toNat ≠ 92 ∧ 32 ≤ c.toNat))

instance decPlainL (l : List Char) : Decidable (PlainL l) :=
  inferInstanceAs (Decidable (∀ c ∈ l, PlainChar c))

/-- A data layout for examples: type token 0 has size 4 bytes, every other
type has size 8 bytes. -/
def exDL : LLVMType → Nat := fun t => if t = 0 then 4 else 8

/-- Example function for the byte-accounting example of C1: one load of a
4-byte-sized value and one store of an 8-byte-sized value. -/
def exLoadStoreF : Function :=
  { id := 0, name := "f", body := [[Instruction.load 0, Instruction.store 1 5]],
    subprogram := none }

/-- Example function with debug info inside the project root. -/
def exUserF : Function :=
  { id := 0, name := "main", body := [[Instruction.load 0]],
    subprogram := some (some { directory := "/proj", filename := "a.c" }) }

/-- Example module containing only `exUserF`. -/
def exUserModule : Module := { functions := [exUserF], dataLayout := fun _ => 4 }

/-- Example function whose mangled name contains a double quote (legal for
LLVM quoted identifiers, and demangled names of user-defined literal
operators contain quotes as well). -/
def quoteNameF : Function :=
  { id := 0, name := "a\"b", body := [[Instruction.load 0]],
    subprogram := some (some { directory := "/proj", filename := "a.c" }) }

/-- Example module containing only `quoteNameF`. -/
def quoteModule : Module := { functions := [quoteNameF], dataLayout := fun _ => 4 }

/-- Two example functions with no debug info, for the C6 counterexample. -/
def plainF1 : Function :=
  { id := 1, name := "g1", body := [[]], subprogram := none }

/-- Second example function for the C6 counterexample. -/
def plainF2 : Function :=
  { id := 2, name := "g2", body := [[]], subprogram := none }

/-- Example module with two functions, for the C6 counterexample. -/
def twoFnModule : Module :=
  { functions := [plainF1, plainF2], dataLayout := fun _ => 1 }

/-!
Theorems. First the characterization of the instruction accountant, then
the cache, the classifier, the CSV escaping, the run-level fold lemmas,
and the JSON round trip.
-/

lemma foldl_accountInstr (dl : LLVMType → Nat) :
    ∀ (l : List Instruction) (r : FunctionAnalysis),
      l.foldl (accountInstr dl) r =
        { mangledName := r.mangledName, demangledName := r.demangledName,
          loads := r.loads + l.countP isLoadInstr,
          stores := r.stores + l.countP isStoreInstr,
          bytes := r.bytes + (l.map (instrBytes dl)).sum } := by
  intro l
  induction l with
  | nil => intro r; simp
  | cons i rest ih =>
    intro r
    cases i <;>
      simp [accountInstr, ih, List.countP_cons, isLoadInstr, isStoreInstr,
        instrBytes] <;> omega

lemma foldl_blocks (dl : LLVMType → Nat) :
    ∀ (bbs : List (List Instruction)) (r : FunctionAnalysis),
      bbs.foldl (fun acc bb => bb.foldl (accountInstr dl) acc) r =
        bbs.flatten.foldl (accountInstr dl) r := by
  intro bbs
  induction bbs with
  | nil => intro r; rfl
  | cons bb rest ih => intro r; simp [List.foldl_append, ih]

lemma computeAnalysis_eq (dm : String → String) (dl : LLVMType → Nat)
    (F : Function) :
    computeAnalysis dm dl F =
      { mangledName := F.name, demangledName := dm F.name,
        loads := (instrsOf F).countP isLoadInstr,
        stores := (instrsOf F).countP isStoreInstr,
        bytes := ((instrsOf F).map (instrBytes dl)).sum } := by
  unfold computeAnalysis instrsOf
  rw [foldl_blocks, foldl_accountInstr]
  simp

/-- C1: the Instruction Accountant increments `loads` once per load
instruction adding the allocation size of the loaded value's type to
`bytes`, and increments `stores` once per store instruction adding the
allocation size of the stored value's type (not the address) to `bytes`:
over the whole body, `loads` is the number of load instructions, `stores`
the number of store instructions, and `bytes` the sum of the per-instruction
contributions (loaded value's type size for loads, stored value's type size
for stores, zero otherwise — the store's pointer-operand type never enters).
In particular a function with exactly one load of a 4-byte-sized value and
one store of an 8-byte-sized value yields loads=1, stores=1, bytes=12. -/
theorem C1_instruction_accounting (dm : String → String) (dl : LLVMType → Nat)
    (F : Function) :
    ((computeAnalysis dm dl F).loads = (instrsOf F).countP isLoadInstr ∧
     (computeAnalysis dm dl F).stores = (instrsOf F).countP isStoreInstr ∧
     (computeAnalysis dm dl F).bytes = ((instrsOf F).map (instrBytes dl)).sum) ∧
    ((computeAnalysis dm exDL exLoadStoreF).loads = 1 ∧
     (computeAnalysis dm exDL exLoadStoreF).stores = 1 ∧
     (computeAnalysis dm exDL exLoadStoreF).bytes = 12) := by
  rw [computeAnalysis_eq dm dl F, computeAnalysis_eq dm exDL exLoadStoreF]
  exact ⟨⟨rfl, rfl, rfl⟩, rfl, rfl, rfl⟩

/-- C2: requesting the analysis of a function identity twice through the
cache returns the Instruction Accountant's result both times; the second
request is answered from the stored entry, leaving the cache unchanged, so
the accountant's traversal runs at most once per identity. -/
theorem C2_cache_equivalence (dm : String → String) (dl : LLVMType → Nat)
    (F : Function) (m : AnalysisMap) (h : mapFind m F.id = none) :
    (analyzeFunction dm dl F m).1 = computeAnalysis dm dl F ∧
    (analyzeFunction dm dl F (analyzeFunction dm dl F m).2).1 =
      computeAnalysis dm dl F ∧
    (analyzeFunction dm dl F (analyzeFunction dm dl F m).2).2 =
      (analyzeFunction dm dl F m).2 ∧
    mapFind (analyzeFunction dm dl F m).2 F.id =
      some (computeAnalysis dm dl F) := by
  have h1 : analyzeFunction dm dl F m =
      (computeAnalysis dm dl F, (F.id, computeAnalysis dm dl F) :: m) := by
    unfold analyzeFunction
    rw [h]
  have h2 : mapFind ((F.id, computeAnalysis dm dl F) :: m) F.id =
      some (computeAnalysis dm dl F) := by
    unfold mapFind
    rw [if_pos rfl]
  refine ⟨by rw [h1], ?_, ?_, by rw [h1]; exact h2⟩ <;>
    · rw [h1]
      unfold analyzeFunction
      rw [h2]

/-- Witness for C2 at a concrete input: the empty cache and `exUserF`. -/
theorem C2_cache_equivalence_witness :
    (analyzeFunction (fun s => s) exDL exUserF []).1 =
      computeAnalysis (fun s => s) exDL exUserF ∧
    (analyzeFunction (fun s => s) exDL exUserF
        (analyzeFunction (fun s => s) exDL exUserF []).2).1 =
      computeAnalysis (fun s => s) exDL exUserF ∧
    (analyzeFunction (fun s => s) exDL exUserF
        (analyzeFunction (fun s => s) exDL exUserF []).2).2 =
      (analyzeFunction (fun s => s) exDL exUserF []).2 ∧
    mapFind (analyzeFunction (fun s => s) exDL exUserF []).2 exUserF.id =
      some (computeAnalysis (fun s => s) exDL exUserF) :=
  C2_cache_equivalence (fun s => s) exDL exUserF [] rfl

/-- C3: with the root-path environment variable absent, the classifier
returns false for every function, whatever its debug metadata or source
path. -/
theorem C3_fail_closed (F : Function) :
    (isUserDefinedFunction none F).1 = false := rfl

/-- C9: for a fixed function body and fixed data layout, the analysis
triple is deterministic and pure: computed through any two fresh caches,
and for any two functions with the same body (names and identities may
differ), the resulting `(loads, stores, bytes)` triples coincide. -/
theorem C9_determinism (dm1 dm2 : String → String) (dl : LLVMType → Nat)
    (F1 F2 : Function) (m1 m2 : AnalysisMap)
    (h1 : mapFind m1 F1.id = none) (h2 : mapFind m2 F2.id = none)
    (hb : F1.body = F2.body) :
    ((analyzeFunction dm1 dl F1 m1).1.loads,
     (analyzeFunction dm1 dl F1 m1).1.stores,
     (analyzeFunction dm1 dl F1 m1).1.bytes) =
    ((analyzeFunction dm2 dl F2 m2).1.loads,
     (analyzeFunction dm2 dl F2 m2).1.stores,
     (analyzeFunction dm2 dl F2 m2).1.bytes) := by
  have e1 : (analyzeFunction dm1 dl F1 m1).1 = computeAnalysis dm1 dl F1 := by
    unfold analyzeFunction
    rw [h1]
  have e2 : (analyzeFunction dm2 dl F2 m2).1 = computeAnalysis dm2 dl F2 := by
    unfold analyzeFunction
    rw [h2]
  rw [e1, e2, computeAnalysis_eq, computeAnalysis_eq]
  unfold instrsOf
  rw [hb]

/-- Witness for C9 at concrete inputs: the same body under two different
names and identities, two fresh caches. -/
theorem C9_determinism_witness :
    ((analyzeFunction (fun s => s) exDL exLoadStoreF []).1.loads,
     (analyzeFunction (fun s => s) exDL exLoadStoreF []).1.stores,
     (analyzeFunction (fun s => s) exDL exLoadStoreF []).1.bytes) =
    ((analyzeFunction (fun s => s ++ "2") exDL
        { id := 7, name := "f2", body := exLoadStoreF.body, subprogram := none }
        []).1.loads,
     (analyzeFunction (fun s => s ++ "2") exDL
        { id := 7, name := "f2", body := exLoadStoreF.body, subprogram := none }
        []).1.stores,
     (analyzeFunction (fun s => s ++ "2") exDL
        { id := 7, name := "f2", body := exLoadStoreF.body, subprogram := none }
        []).1.bytes) :=
  C9_determinism (fun s => s) (fun s => s ++ "2") exDL exLoadStoreF
    { id := 7, name := "f2", body := exLoadStoreF.body, subprogram := none }
    [] [] rfl rfl rfl

lemma prefixB_iff : ∀ (p s : List Char), prefixB p s = true ↔ ∃ t, s = p ++ t := by
  intro p
  induction p with
  | nil => intro s; simp [prefixB]
  | cons c cs ih =>
    intro s
    cases s with
    | nil =>
      simp only [prefixB]
      constructor
      · intro h; exact absurd h (by simp)
      · rintro ⟨t, ht⟩; exact absurd ht (by simp)
    | cons d ds =>
      simp only [prefixB, Bool.and_eq_true, decide_eq_true_eq, ih]
      constructor
      · rintro ⟨rfl, t, rfl⟩; exact ⟨t, rfl⟩
      · rintro ⟨t, ht⟩
        cases ht
        exact ⟨rfl, t, rfl⟩

/-- C5: with the root path set, a function is classified user-defined
exactly when it carries debug metadata whose directory+filename
concatenation is prefixed by the root under a plain string-prefix test;
`<root>/src/a.c` with root `<root>` is user-defined, `/root2/x.c` matches a
root of `/root`, and a function with no debug metadata is classified not
user-defined for any root value. -/
theorem C5_path_prefix_classification (root : String) (F : Function) :
    ((isUserDefinedFunction (some root) F).1 = true ↔
      ∃ fl : DIFile, F.subprogram = some (some fl) ∧
        ∃ t, (pathAppend fl.directory fl.filename).data = root.data ++ t) ∧
    (isUserDefinedFunction (some "/root")
        { id := 0, name := "g", body := [[]],
          subprogram := some (some { directory := "/root", filename := "src/a.c" }) }).1
      = true ∧
    (isUserDefinedFunction (some "/root")
        { id := 1, name := "h", body := [[]],
          subprogram := some (some { directory := "/root2", filename := "x.c" }) }).1
      = true ∧
    (∀ (root2 : String) (G : Function),
      (isUserDefinedFunction (some root2)
        { id := G.id, name := G.name, body := G.body, subprogram := none }).1
        = false) := by
  refine ⟨?_, by decide, by decide, fun root2 G => rfl⟩
  cases hs : F.subprogram with
  | none =>
    simp only [isUserDefinedFunction, hs]
    constructor
    · intro h; exact absurd h (by simp)
    · rintro ⟨fl, hfl, -⟩; exact absurd hfl (by simp)
  | some sub =>
    cases sub with
    | none =>
      simp only [isUserDefinedFunction, hs]
      constructor
      · intro h; exact absurd h (by simp)
      · rintro ⟨fl, hfl, -⟩
        exact absurd hfl (by simp)
    | some fl =>
      simp only [isUserDefinedFunction, hs]
      rw [prefixB_iff]
      constructor
      · rintro ⟨t, ht⟩; exact ⟨fl, rfl, t, ht⟩
      · rintro ⟨fl2, hfl, t, ht⟩
        have : fl = fl2 := by injection hfl with h1; injection h1
        rw [this]
        exact ⟨t, ht⟩

lemma escapeQuotesL_eq (l : List Char) : escapeQuotesL l = l.flatMap dupQuote := by
  induction l with
  | nil => rfl
  | cons c rest ih =>
    by_cases hc : c = '"' <;> simp [escapeQuotesL, dupQuote, hc, ih]

/-- C8: a field containing a comma or a double quote is emitted wrapped in
double quotes with each internal quote doubled; `foo,bar` becomes the
quoted cell `"foo,bar"`, and a quote character is doubled inside wrapping
quotes. -/
theorem C8_csv_escaping (s : String)
    (h : (',' ∈ s.data) ∨ ('"' ∈ s.data)) :
    (escapeCSV s).data = '"' :: (s.data.flatMap dupQuote ++ ['"']) ∧
    escapeCSV "foo,bar" = "\"foo,bar\"" ∧
    escapeCSV "a\"b" = "\"a\"\"b\"" := by
  refine ⟨?_, by decide, by decide⟩
  unfold escapeCSV
  rw [if_pos h]
  simp [escapeQuotesL_eq]

/-- Witness for C8 at the concrete cell `foo,bar`. -/
theorem C8_csv_escaping_witness :
    (escapeCSV "foo,bar").data =
      '"' :: (("foo,bar").data.flatMap dupQuote ++ ['"']) ∧
    escapeCSV "foo,bar" = "\"foo,bar\"" ∧
    escapeCSV "a\"b" = "\"a\"\"b\"" :=
  C8_csv_escaping "foo,bar" (Or.inl (by decide))

/-- C10: the CSV escaping function is the identity on every string that
contains neither a comma nor a double quote, so such fields appear verbatim
and unquoted in the tabular artifact. -/
theorem C10_escape_identity (s : String)
    (h : ∀ c ∈ s.data, c ≠ ',' ∧ c ≠ '"') :
    escapeCSV s = s := by
  unfold escapeCSV
  rw [if_neg]
  rintro (hc | hc)
  · exact (h _ hc).1 rfl
  · exact (h _ hc).2 rfl

/-- Witness for C10 at the concrete cell `hello_world`. -/
theorem C10_escape_identity_witness : escapeCSV "hello_world" = "hello_world" :=
  C10_escape_identity "hello_world" (by decide)

lemma analyzeFunction_nil (dm : String → String) (dl : LLVMType → Nat)
    (F : Function) :
    analyzeFunction dm dl F [] =
      (computeAnalysis dm dl F, [(F.id, computeAnalysis dm dl F)]) := rfl

lemma runStep_emitted (dm : String → String) (dl : LLVMType → Nat)
    (env : Option String) (st : RunState) (F : Function)
    (h : emitted env F = true) :
    runStep dm dl env st F =
      { st with
        diag := st.diag ++ (isUserDefinedFunction env F).2 ++
          [printFunctionAnalysis (computeAnalysis dm dl F)],
        csv := writeToCSV st.csv (computeAnalysis dm dl F),
        json := writeToJSON st.json (computeAnalysis dm dl F) st.isFirst,
        isFirst := false } := by
  unfold emitted at h
  unfold runStep
  rw [if_pos h, analyzeFunction_nil]

lemma runStep_skipped (dm : String → String) (dl : LLVMType → Nat)
    (env : Option String) (st : RunState) (F : Function)
    (h : emitted env F = false) :
    runStep dm dl env st F =
      { st with diag := st.diag ++ (isUserDefinedFunction env F).2 } := by
  unfold emitted at h
  unfold runStep
  rw [if_neg (by rw [h]; exact Bool.false_ne_true)]

lemma foldl_runStep (dm : String → String) (dl : LLVMType → Nat)
    (env : Option String) :
    ∀ (fs : List Function) (st : RunState),
      fs.foldl (runStep dm dl env) st =
        { callCounts := st.callCounts,
          diag := st.diag ++ diagOf dm dl env fs,
          csv := (analyzedRecsList dm dl env fs).foldl writeToCSV st.csv,
          json := st.json ++
            (if st.isFirst then jsonBody (analyzedRecsList dm dl env fs)
             else jsonTail (analyzedRecsList dm dl env fs)),
          isFirst := st.isFirst && (analyzedRecsList dm dl env fs).isEmpty } := by
  intro fs
  induction fs with
  | nil =>
    intro st
    cases st
    simp [diagOf, analyzedRecsList, jsonBody, jsonTail]
  | cons F fs ih =>
    intro st
    rw [List.foldl_cons, ih]
    cases hF : emitted env F with
    | false =>
      rw [runStep_skipped dm dl env st F hF]
      simp [analyzedRecsList, diagOf, diagOfF, hF, List.filter_cons,
        List.append_assoc]
    | true =>
      rw [runStep_emitted dm dl env st F hF]
      cases hFst : st.isFirst <;>
        simp [analyzedRecsList, diagOf, diagOfF, hF, hFst, List.filter_cons,
          writeToJSON, jsonBody, jsonTail, List.append_assoc]

lemma run_eq (dm : String → String) (env : Option String) (M : Module)
    (csv0 : CSVState) :
    run dm env M csv0 =
      { callCounts := buildCallCounts M,
        diag := diagOf dm M.dataLayout env M.functions,
        csv := (analyzedRecs dm env M).foldl writeToCSV csv0,
        json := '[' :: '\n' :: (jsonBody (analyzedRecs dm env M) ++ ['\n', ']']),
        isFirst := (analyzedRecs dm env M).isEmpty } := by
  unfold analyzedRecs
  simp only [run]
  rw [foldl_runStep]
  simp

lemma diagOf_none (dm : String → String) (dl : LLVMType → Nat) :
    ∀ fs : List Function, diagOf dm dl none fs = List.replicate fs.length errLine := by
  intro fs
  induction fs with
  | nil => rfl
  | cons F fs ih =>
    simp [diagOf, diagOfF, isUserDefinedFunction, emitted, ih,
      List.replicate_succ]

/-- C6 (amended): with the root-path configuration missing, the error
diagnostic is written once per function of the module — each
classification attempt reports it — so a run over a module with N
functions writes it N times, not once per run. -/
theorem C6_error_once_per_function (dm : String → String) (M : Module)
    (csv0 : CSVState) :
    ((run dm none M csv0).diag.count errLine) = M.functions.length := by
  rw [run_eq]
  simp [diagOf_none]

/-- C6 counterexample: on a module with two functions and the root path
absent, the run writes the error diagnostic twice, so it is not written
exactly once per run. -/
theorem C6_counterexample :
    (run (fun s => s) none twoFnModule csvInit).diag.count errLine = 2 ∧
    (2 : Nat) ≠ 1 := ⟨by decide, by decide⟩

lemma foldl_writeToCSV_init :
    ∀ (rs : List FunctionAnalysis) (st : CSVState), st.initialized = true →
      rs.foldl writeToCSV st =
        { initialized := true, content := st.content ++ csvRows rs } := by
  intro rs
  induction rs with
  | nil =>
    intro st h
    cases st
    simp_all [csvRows]
  | cons a rest ih =>
    intro st h
    rw [List.foldl_cons]
    have hw : writeToCSV st a =
        { initialized := true, content := st.content ++ csvRowData a } := by
      simp [writeToCSV, h]
    rw [hw, ih _ rfl]
    simp [csvRows]

lemma foldl_writeToCSV_uninit (rs : List FunctionAnalysis) (st : CSVState)
    (h : rs ≠ []) (hst : st.initialized = false) :
    rs.foldl writeToCSV st =
      { initialized := true, content := csvHeader.data ++ csvRows rs } := by
  cases rs with
  | nil => exact absurd rfl h
  | cons a rest =>
    rw [List.foldl_cons]
    have hw : writeToCSV st a =
        { initialized := true, content := csvHeader.data ++ csvRowData a } := by
      simp [writeToCSV, hst]
    rw [hw, foldl_writeToCSV_init rest _ rfl]
    simp [csvRows]

/-- C7 (amended): the tabular output file is opened and truncated once per
process — at the first record written in that process, via the
function-local static initialization flag — not once per run; each run
appends one row per analyzed function to it. Hence running the pass twice
in the same process leaves the header followed by the first run's rows and
then the second run's rows (re-running appends, it does not overwrite). -/
theorem C7_append_across_runs (dm : String → String) (env1 env2 : Option String)
    (M1 M2 : Module) (h : analyzedRecs dm env1 M1 ≠ []) :
    (run dm env2 M2 (run dm env1 M1 csvInit).csv).csv.content =
      csvHeader.data ++ csvRows (analyzedRecs dm env1 M1) ++
        csvRows (analyzedRecs dm env2 M2) := by
  simp only [run_eq]
  rw [foldl_writeToCSV_uninit _ _ h rfl, foldl_writeToCSV_init _ _ rfl]

/-- Witness for C7 (amended) at a concrete input: the same one-function
module run twice in one process. -/
theorem C7_append_across_runs_witness :
    (run (fun s => s) (some "/proj") exUserModule
        (run (fun s => s) (some "/proj") exUserModule csvInit).csv).csv.content =
      csvHeader.data ++
        csvRows (analyzedRecs (fun s => s) (some "/proj") exUserModule) ++
        csvRows (analyzedRecs (fun s => s) (some "/proj") exUserModule) :=
  C7_append_across_runs (fun s => s) (some "/proj") (some "/proj")
    exUserModule exUserModule (by decide)

/-- C7 counterexample: running the pass twice in the same process does not
leave the same tabular file content as running the second run alone — the
second run's rows are appended after the first run's. -/
theorem C7_counterexample :
    (run (fun s => s) (some "/proj") exUserModule
        (run (fun s => s) (some "/proj") exUserModule csvInit).csv).csv.content ≠
      (run (fun s => s) (some "/proj") exUserModule csvInit).csv.content := by
  decide

lemma charNe {c d : Char} (h : c.toNat ≠ d.toNat) : c ≠ d :=
  fun he => h (by rw [he])

lemma skipWs_cons_ws {c : Char} (h : isWsChar c = true) (cs : List Char) :
    skipWs (c :: cs) = skipWs cs := by
  simp [skipWs, h]

lemma skipWs_cons_not {c : Char} (h : isWsChar c = false) (cs : List Char) :
    skipWs (c :: cs) = c :: cs := by
  simp [skipWs, h]

lemma skipWs_append_ws :
    ∀ (w cs : List Char), (∀ c ∈ w, isWsChar c = true) →
      skipWs (w ++ cs) = skipWs cs := by
  intro w
  induction w with
  | nil => intro cs _; rfl
  | cons c w ih =>
    intro cs h
    rw [List.cons_append, skipWs_cons_ws (h c (by simp)), ih cs (fun x hx => h x (by simp [hx]))]

lemma skipWs_idem (l : List Char) : skipWs (skipWs l) = skipWs l := by
  induction l with
  | nil => rfl
  | cons c cs ih =>
    cases h : isWsChar c with
    | true => rw [skipWs_cons_ws h, ih]
    | false => rw [skipWs_cons_not h, skipWs_cons_not h]

lemma parseValue_skipWs (fuel : Nat) (cs : List Char) :
    parseValue (fuel + 1) (skipWs cs) = parseValue (fuel + 1) cs := by
  simp only [parseValue]
  rw [skipWs_idem]

lemma parseValue_ws (fuel : Nat) (w cs : List Char)
    (hw : ∀ c ∈ w, isWsChar c = true) :
    parseValue (fuel + 1) (w ++ cs) = parseValue (fuel + 1) cs := by
  simp only [parseValue]
  rw [skipWs_append_ws w cs hw]

lemma parseStringBody_plain :
    ∀ (s rest : List Char), PlainL s →
      parseStringBody (s ++ '"' :: rest) = some (s, rest) := by
  intro s
  induction s with
  | nil => intro rest _; simp [parseStringBody.eq_def]
  | cons c cs ih =>
    intro rest h
    obtain ⟨h34, h92, h32⟩ := h c (by simp)
    have hc1 : c ≠ '"' := charNe (by rw [show ('"').toNat = 34 from rfl]; exact h34)
    have hc2 : c ≠ '\\' := charNe (by rw [show ('\\').toNat = 92 from rfl]; exact h92)
    have hc3 : ¬ (c.toNat < 32) := by omega
    rw [List.cons_append, parseStringBody.eq_def]
    dsimp only
    rw [if_neg hc1, if_neg hc2, if_neg hc3, ih rest (fun x hx => h x (by simp [hx]))]
    rfl

lemma parseValue_str (fuel : Nat) (s : List Char) (hs : PlainL s)
    (rest : List Char) :
    parseValue (fuel + 1) ('"' :: (s ++ '"' :: rest)) =
      some (.str s, rest) := by
  simp only [parseValue]
  rw [skipWs_cons_not (by decide)]
  simp only [↓reduceIte]
  rw [parseStringBody_plain s rest hs]

lemma natDigitsAux_congr :
    ∀ (f1 : Nat), ∀ (n f2 : Nat), n < f1 → n < f2 →
      natDigitsAux f1 n = natDigitsAux f2 n := by
  intro f1
  induction f1 with
  | zero => intro n f2 h1 _; omega
  | succ f ih =>
    intro n f2 h1 h2
    cases f2 with
    | zero => omega
    | succ f2' =>
      simp only [natDigitsAux]
      by_cases h10 : n < 10
      · rw [if_pos h10, if_pos h10]
      · rw [if_neg h10, if_neg h10,
          ih (n / 10) f2' (by
            have := Nat.div_lt_self (show 0 < n by omega) (show 1 < 10 by omega)
            omega)
          (by
            have := Nat.div_lt_self (show 0 < n by omega) (show 1 < 10 by omega)
            omega)]

lemma natDigits_eq (n : Nat) :
    natDigits n =
      if n < 10 then [digitChar n]
      else natDigits (n / 10) ++ [digitChar (n % 10)] := by
  by_cases h10 : n < 10
  · rw [if_pos h10]
    show natDigitsAux (n + 1) n = _
    simp only [natDigitsAux]
    rw [if_pos h10]
  · rw [if_neg h10]
    show natDigitsAux (n + 1) n = _
    simp only [natDigitsAux]
    rw [if_neg h10]
    unfold natDigits
    rw [natDigitsAux_congr n (n / 10) (n / 10 + 1)
      (by
        have := Nat.div_lt_self (show 0 < n by omega) (show 1 < 10 by omega)
        omega)
      (by omega)]

lemma digitChar_toNat (d : Nat) (h : d < 10) : (digitChar d).toNat = 48 + d := by
  interval_cases d <;> rfl

lemma digitChar_isDigit (d : Nat) (h : d < 10) : isDigitChar (digitChar d) = true := by
  have ht := digitChar_toNat d h
  simp only [isDigitChar, ht, Bool.and_eq_true, decide_eq_true_eq]
  omega

lemma digitChar_val (d : Nat) (h : d < 10) : digitVal (digitChar d) = d := by
  have ht := digitChar_toNat d h
  simp only [digitVal, ht]
  omega

lemma natDigits_all_digits :
    ∀ n : Nat, ∀ c ∈ natDigits n, isDigitChar c = true := by
  intro n
  induction n using Nat.strong_induction_on with
  | _ n ih =>
    rw [natDigits_eq]
    by_cases h : n < 10
    · rw [if_pos h]
      intro c hc
      simp only [List.mem_singleton] at hc
      subst hc
      exact digitChar_isDigit n h
    · rw [if_neg h]
      intro c hc
      rcases List.mem_append.mp hc with h1 | h2
      · exact ih (n / 10) (Nat.div_lt_self (by omega) (by omega)) c h1
      · simp only [List.mem_singleton] at h2
        subst h2
        exact digitChar_isDigit (n % 10) (Nat.mod_lt _ (by omega))

lemma natDigits_ne_nil (n : Nat) : natDigits n ≠ [] := by
  rw [natDigits_eq]
  by_cases h : n < 10 <;> simp [h]

lemma natDigits_head_ne_zero :
    ∀ n : Nat, 1 ≤ n → ∀ (d : Char) (ds : List Char),
      natDigits n = d :: ds → d ≠ '0' := by
  intro n
  induction n using Nat.strong_induction_on with
  | _ n ih =>
    intro hn d ds hd
    rw [natDigits_eq] at hd
    by_cases h : n < 10
    · rw [if_pos h] at hd
      have : d = digitChar n := by injection hd with h1 _; exact h1.symm
      subst this
      refine charNe ?_
      rw [digitChar_toNat n h, show ('0').toNat = 48 from rfl]
      omega
    · rw [if_neg h] at hd
      obtain ⟨e, es, he⟩ : ∃ e es, natDigits (n / 10) = e :: es := by
        cases hne : natDigits (n / 10) with
        | nil => exact absurd hne (natDigits_ne_nil _)
        | cons e es => exact ⟨e, es, rfl⟩
      rw [he, List.cons_append] at hd
      have : d = e := by injection hd with h1 _; exact h1.symm
      subst this
      exact ih (n / 10) (Nat.div_lt_self (by omega) (by omega))
        (Nat.one_le_div_iff (by omega) |>.mpr (by omega)) d es he

lemma foldl_digitVal :
    ∀ n : Nat, ∀ acc : Nat,
      (natDigits n).foldl (fun a c => a * 10 + digitVal c) acc =
        acc * 10 ^ (natDigits n).length + n := by
  intro n
  induction n using Nat.strong_induction_on with
  | _ n ih =>
    intro acc
    rw [natDigits_eq]
    by_cases h : n < 10
    · rw [if_pos h]
      simp only [List.foldl_cons, List.foldl_nil, List.length_singleton,
        pow_one]
      rw [digitChar_val n h]
    · rw [if_neg h]
      rw [List.foldl_append, List.length_append]
      simp only [List.foldl_cons, List.foldl_nil, List.length_singleton]
      rw [ih (n / 10) (Nat.div_lt_self (by omega) (by omega)) acc,
        digitChar_val (n % 10) (Nat.mod_lt _ (by omega))]
      have hdm : n / 10 * 10 + n % 10 = n := by omega
      calc (acc * 10 ^ (natDigits (n / 10)).length + n / 10) * 10 + n % 10
          = acc * (10 ^ (natDigits (n / 10)).length * 10) +
              (n / 10 * 10 + n % 10) := by ring
        _ = acc * 10 ^ ((natDigits (n / 10)).length + 1) + n := by
              rw [← pow_succ, hdm]

lemma parseDigitsAux_not {r : Char} (rs : List Char) (acc : Nat)
    (h : isDigitChar r = false) :
    parseDigitsAux (r :: rs) acc = (acc, r :: rs) := by
  simp [parseDigitsAux, h]

lemma parseDigitsAux_append :
    ∀ (l1 l2 : List Char) (acc : Nat), (∀ c ∈ l1, isDigitChar c = true) →
      parseDigitsAux (l1 ++ l2) acc =
        parseDigitsAux l2 (l1.foldl (fun a c => a * 10 + digitVal c) acc) := by
  intro l1
  induction l1 with
  | nil => intro l2 acc _; rfl
  | cons c l1 ih =>
    intro l2 acc h
    rw [List.cons_append]
    simp only [parseDigitsAux, h c (by simp), if_pos rfl, List.foldl_cons]
    exact ih l2 _ (fun x hx => h x (by simp [hx]))

lemma parseNumber_natDigits (n : Nat) (rest : List Char)
    (hb : rest = [] ∨ ∃ r rs, rest = r :: rs ∧ isDigitChar r = false ∧
      r ≠ '.' ∧ ¬(r = 'e' ∨ r = 'E')) :
    parseNumber (natDigits n ++ rest) = some (n, rest) := by
  have hstop : ∀ acc, parseDigitsAux rest acc = (acc, rest) := by
    rcases hb with rfl | ⟨r, rs, rfl, hr, -, -⟩
    · intro acc; rfl
    · intro acc; exact parseDigitsAux_not rs acc hr
  have hfrac : parseFracPart rest = some rest := by
    rcases hb with rfl | ⟨r, rs, rfl, -, hr, -⟩
    · rfl
    · simp [parseFracPart, hr]
  have hexp : parseExpPart rest = some rest := by
    rcases hb with rfl | ⟨r, rs, rfl, -, -, hr⟩
    · rfl
    · simp only [parseExpPart]
      rw [if_neg hr]
  have hfe : ∀ m, parseFracExp m rest = some (m, rest) := by
    intro m
    simp [parseFracExp, hfrac, hexp]
  obtain ⟨d, ds, hd⟩ : ∃ d ds, natDigits n = d :: ds := by
    cases hne : natDigits n with
    | nil => exact absurd hne (natDigits_ne_nil _)
    | cons d ds => exact ⟨d, ds, rfl⟩
  have hdig : isDigitChar d = true :=
    natDigits_all_digits n d (by rw [hd]; exact List.mem_cons_self d ds)
  have hdb : 48 ≤ d.toNat ∧ d.toNat ≤ 57 := by
    simpa [isDigitChar, Bool.and_eq_true, decide_eq_true_eq] using hdig
  have hminus : d ≠ '-' := charNe (by rw [show ('-').toNat = 45 from rfl]; omega)
  rw [hd, List.cons_append]
  simp only [parseNumber]
  rw [if_neg hminus]
  by_cases h0 : n = 0
  · subst h0
    have h00 : natDigits 0 = ['0'] := rfl
    rw [h00] at hd
    have hd0 : d = '0' ∧ ds = [] := by
      constructor <;> injection hd with h1 h2
      · exact h1.symm
      · exact h2.symm
    obtain ⟨rfl, rfl⟩ := hd0
    simp only [parseNumBody, List.nil_append, if_true]
    rcases hb with rfl | ⟨r, rs, rfl, hr, -, -⟩
    · exact hfe 0
    · dsimp only
      rw [hr]
      simp only [Bool.false_eq_true, if_false]
      exact hfe 0
  · have hne0 : d ≠ '0' := natDigits_head_ne_zero n (by omega) d ds hd
    simp only [parseNumBody]
    rw [if_neg hne0, hdig]
    simp only [if_true]
    have hds : ∀ c ∈ ds, isDigitChar c = true := fun c hc =>
      natDigits_all_digits n c (by rw [hd]; exact List.mem_cons_of_mem d hc)
    rw [parseDigitsAux_append ds rest (digitVal d) hds, hstop]
    have hv : ds.foldl (fun a c => a * 10 + digitVal c) (digitVal d) = n := by
      have hfd := foldl_digitVal n 0
      rw [hd] at hfd
      simpa using hfd
    rw [hv]
    exact hfe n

lemma parseValue_nat (fuel : Nat) (n : Nat) (rest : List Char)
    (hb : rest = [] ∨ ∃ r rs, rest = r :: rs ∧ isDigitChar r = false ∧
      r ≠ '.' ∧ ¬(r = 'e' ∨ r = 'E')) :
    parseValue (fuel + 1) (natDigits n ++ rest) = some (.num n, rest) := by
  obtain ⟨d, ds, hd⟩ : ∃ d ds, natDigits n = d :: ds := by
    cases hne : natDigits n with
    | nil => exact absurd hne (natDigits_ne_nil _)
    | cons d ds => exact ⟨d, ds, rfl⟩
  have hdig : isDigitChar d = true :=
    natDigits_all_digits n d (by rw [hd]; exact List.mem_cons_self d ds)
  have hdb : 48 ≤ d.toNat ∧ d.toNat ≤ 57 := by
    simpa [isDigitChar, Bool.and_eq_true, decide_eq_true_eq] using hdig
  have hws : isWsChar d = false := by
    simp only [isWsChar, Bool.or_eq_false_iff, decide_eq_false_iff_not]
    omega
  simp only [parseValue]
  rw [hd, List.cons_append, skipWs_cons_not hws]
  dsimp only
  rw [if_neg (charNe (show d.toNat ≠ ('"').toNat by
        rw [show ('"').toNat = 34 from rfl]; omega)),
    if_neg (charNe (show d.toNat ≠ ('[').toNat by
        rw [show ('[').toNat = 91 from rfl]; omega)),
    if_neg (charNe (show d.toNat ≠ lbrace.toNat by
        rw [show lbrace.toNat = 123 from rfl]; omega)),
    if_neg (charNe (show d.toNat ≠ ('t').toNat by
        rw [show ('t').toNat = 116 from rfl]; omega)),
    if_neg (charNe (show d.toNat ≠ ('f').toNat by
        rw [show ('f').toNat = 102 from rfl]; omega)),
    if_neg (charNe (show d.toNat ≠ ('n').toNat by
        rw [show ('n').toNat = 110 from rfl]; omega)),
    ← List.cons_append, ← hd, parseNumber_natDigits n rest hb]

lemma parseValue_sp (fuel : Nat) (cs : List Char) :
    parseValue (fuel + 1) (' ' :: cs) = parseValue (fuel + 1) cs := by
  simp only [parseValue]
  rw [skipWs_cons_ws (by decide)]

lemma parseValue_nl (fuel : Nat) (cs : List Char) :
    parseValue (fuel + 1) ('\n' :: cs) = parseValue (fuel + 1) cs := by
  simp only [parseValue]
  rw [skipWs_cons_ws (by decide)]

lemma parseMembers_nlsp (fuel : Nat) (cs : List Char) :
    parseMembers (fuel + 1) ('\n' :: ' ' :: ' ' :: ' ' :: ' ' :: cs) =
      parseMembers (fuel + 1) cs := by
  simp only [parseMembers]
  rw [skipWs_cons_ws (by decide), skipWs_cons_ws (by decide),
    skipWs_cons_ws (by decide), skipWs_cons_ws (by decide),
    skipWs_cons_ws (by decide)]

lemma parseMembers_more (f : Nat) (k : String) (hk : PlainL k.data)
    (rest1 r3 r4 : List Char) (v : Json) (ms : List (List Char × Json))
    (r5 : List Char)
    (hv : parseValue f rest1 = some (v, r3))
    (h3 : skipWs r3 = ',' :: r4)
    (hrec : parseMembers f r4 = some (ms, r5)) :
    parseMembers (f + 1) ('"' :: (k.data ++ '"' :: ':' :: rest1)) =
      some ((k.data, v) :: ms, r5) := by
  simp only [parseMembers]
  rw [skipWs_cons_not (by decide)]
  dsimp only
  simp only [↓reduceIte]
  rw [parseStringBody_plain k.data (':' :: rest1) hk]
  dsimp only
  rw [skipWs_cons_not (by decide)]
  dsimp only
  simp only [↓reduceIte]
  rw [hv]
  dsimp only
  rw [h3]
  dsimp only
  simp only [↓reduceIte]
  rw [hrec]

lemma parseMembers_last (f : Nat) (k : String) (hk : PlainL k.data)
    (rest1 r3 r4 : List Char) (v : Json)
    (hv : parseValue f rest1 = some (v, r3))
    (h3 : skipWs r3 = rbrace :: r4) :
    parseMembers (f + 1) ('"' :: (k.data ++ '"' :: ':' :: rest1)) =
      some ([(k.data, v)], r4) := by
  simp only [parseMembers]
  rw [skipWs_cons_not (by decide)]
  dsimp only
  simp only [↓reduceIte]
  rw [parseStringBody_plain k.data (':' :: rest1) hk]
  dsimp only
  rw [skipWs_cons_not (by decide)]
  dsimp only
  simp only [↓reduceIte]
  rw [hv]
  dsimp only
  rw [h3]
  dsimp only
  rw [if_neg (show rbrace ≠ ',' by decide), if_pos rfl]

lemma parseValue_record (f : Nat) (a : FunctionAnalysis) (rest : List Char)
    (hd : PlainL a.demangledName.data) (hm : PlainL a.mangledName.data) :
    parseValue (f + 7) (jsonRecordData a ++ rest) = some (recordJson a, rest) := by
  have m5 : parseMembers (f + 2)
      ('"' :: (jsonKeyBytes.data ++ '"' :: ':' :: ' ' ::
        (natDigits a.bytes ++ '\n' :: ' ' :: ' ' :: rbrace :: rest))) =
      some ([(jsonKeyBytes.data, Json.num a.bytes)], rest) := by
    have hv : parseValue (f + 1)
        (' ' :: (natDigits a.bytes ++ '\n' :: ' ' :: ' ' :: rbrace :: rest)) =
        some (Json.num a.bytes, '\n' :: ' ' :: ' ' :: rbrace :: rest) := by
      rw [parseValue_sp f]
      exact parseValue_nat f a.bytes _
        (Or.inr ⟨'\n', _, rfl, by decide, by decide, by decide⟩)
    have h3 : skipWs ('\n' :: ' ' :: ' ' :: rbrace :: rest) = rbrace :: rest := by
      rw [skipWs_cons_ws (by decide), skipWs_cons_ws (by decide),
        skipWs_cons_ws (by decide), skipWs_cons_not (by decide)]
    exact parseMembers_last (f + 1) jsonKeyBytes (by decide) _ _ _ _ hv h3
  have m4 : parseMembers (f + 3)
      ('"' :: (jsonKeyStores.data ++ '"' :: ':' :: ' ' ::
        (natDigits a.stores ++ ',' :: '\n' :: ' ' :: ' ' :: ' ' :: ' ' :: '"' ::
          (jsonKeyBytes.data ++ '"' :: ':' :: ' ' ::
            (natDigits a.bytes ++ '\n' :: ' ' :: ' ' :: rbrace :: rest))))) =
      some ((jsonKeyStores.data, Json.num a.stores) ::
        [(jsonKeyBytes.data, Json.num a.bytes)], rest) := by
    have hv : parseValue (f + 2)
        (' ' :: (natDigits a.stores ++ ',' :: '\n' :: ' ' :: ' ' :: ' ' :: ' ' :: '"' ::
          (jsonKeyBytes.data ++ '"' :: ':' :: ' ' ::
            (natDigits a.bytes ++ '\n' :: ' ' :: ' ' :: rbrace :: rest)))) =
        some (Json.num a.stores, ',' :: '\n' :: ' ' :: ' ' :: ' ' :: ' ' :: '"' ::
          (jsonKeyBytes.data ++ '"' :: ':' :: ' ' ::
            (natDigits a.bytes ++ '\n' :: ' ' :: ' ' :: rbrace :: rest))) := by
      rw [parseValue_sp (f + 1)]
      exact parseValue_nat (f + 1) a.stores _
        (Or.inr ⟨',', _, rfl, by decide, by decide, by decide⟩)
    have h3 : skipWs (',' :: '\n' :: ' ' :: ' ' :: ' ' :: ' ' :: '"' ::
        (jsonKeyBytes.data ++ '"' :: ':' :: ' ' ::
          (natDigits a.bytes ++ '\n' :: ' ' :: ' ' :: rbrace :: rest))) =
        ',' :: '\n' :: ' ' :: ' ' :: ' ' :: ' ' :: '"' ::
          (jsonKeyBytes.data ++ '"' :: ':' :: ' ' ::
            (natDigits a.bytes ++ '\n' :: ' ' :: ' ' :: rbrace :: rest)) :=
      skipWs_cons_not (by decide) _
    have hrec : parseMembers (f + 2) ('\n' :: ' ' :: ' ' :: ' ' :: ' ' :: '"' ::
        (jsonKeyBytes.data ++ '"' :: ':' :: ' ' ::
          (natDigits a.bytes ++ '\n' :: ' ' :: ' ' :: rbrace :: rest))) =
        some ([(jsonKeyBytes.data, Json.num a.bytes)], rest) := by
      rw [parseMembers_nlsp (f + 1)]
      exact m5
    exact parseMembers_more (f + 2) jsonKeyStores (by decide) _ _ _ _ _ _ hv h3 hrec
  have m3 : parseMembers (f + 4)
      ('"' :: (jsonKeyLoads.data ++ '"' :: ':' :: ' ' ::
        (natDigits a.loads ++ ',' :: '\n' :: ' ' :: ' ' :: ' ' :: ' ' :: '"' ::
          (jsonKeyStores.data ++ '"' :: ':' :: ' ' ::
            (natDigits a.stores ++ ',' :: '\n' :: ' ' :: ' ' :: ' ' :: ' ' :: '"' ::
              (jsonKeyBytes.data ++ '"' :: ':' :: ' ' ::
                (natDigits a.bytes ++ '\n' :: ' ' :: ' ' :: rbrace :: rest))))))) =
      some ((jsonKeyLoads.data, Json.num a.loads) ::
        (jsonKeyStores.data, Json.num a.stores) ::
        [(jsonKeyBytes.data, Json.num a.bytes)], rest) := by
    have hv : parseValue (f + 3)
        (' ' :: (natDigits a.loads ++ ',' :: '\n' :: ' ' :: ' ' :: ' ' :: ' ' :: '"' ::
          (jsonKeyStores.data ++ '"' :: ':' :: ' ' ::
            (natDigits a.stores ++ ',' :: '\n' :: ' ' :: ' ' :: ' ' :: ' ' :: '"' ::
              (jsonKeyBytes.data ++ '"' :: ':' :: ' ' ::
                (natDigits a.bytes ++ '\n' :: ' ' :: ' ' :: rbrace :: rest)))))) =
        some (Json.num a.loads, ',' :: '\n' :: ' ' :: ' ' :: ' ' :: ' ' :: '"' ::
          (jsonKeyStores.data ++ '"' :: ':' :: ' ' ::
            (natDigits a.stores ++ ',' :: '\n' :: ' ' :: ' ' :: ' ' :: ' ' :: '"' ::
              (jsonKeyBytes.data ++ '"' :: ':' :: ' ' ::
                (natDigits a.bytes ++ '\n' :: ' ' :: ' ' :: rbrace :: rest))))) := by
      rw [parseValue_sp (f + 2)]
      exact parseValue_nat (f + 2) a.loads _
        (Or.inr ⟨',', _, rfl, by decide, by decide, by decide⟩)
    have h3 : skipWs (',' :: '\n' :: ' ' :: ' ' :: ' ' :: ' ' :: '"' ::
        (jsonKeyStores.data ++ '"' :: ':' :: ' ' ::
          (natDigits a.stores ++ ',' :: '\n' :: ' ' :: ' ' :: ' ' :: ' ' :: '"' ::
            (jsonKeyBytes.data ++ '"' :: ':' :: ' ' ::
              (natDigits a.bytes ++ '\n' :: ' ' :: ' ' :: rbrace :: rest))))) =
        ',' :: '\n' :: ' ' :: ' ' :: ' ' :: ' ' :: '"' ::
          (jsonKeyStores.data ++ '"' :: ':' :: ' ' ::
            (natDigits a.stores ++ ',' :: '\n' :: ' ' :: ' ' :: ' ' :: ' ' :: '"' ::
              (jsonKeyBytes.data ++ '"' :: ':' :: ' ' ::
                (natDigits a.bytes ++ '\n' :: ' ' :: ' ' :: rbrace :: rest)))) :=
      skipWs_cons_not (by decide) _
    have hrec : parseMembers (f + 3) ('\n' :: ' ' :: ' ' :: ' ' :: ' ' :: '"' ::
        (jsonKeyStores.data ++ '"' :: ':' :: ' ' ::
          (natDigits a.stores ++ ',' :: '\n' :: ' ' :: ' ' :: ' ' :: ' ' :: '"' ::
            (jsonKeyBytes.data ++ '"' :: ':' :: ' ' ::
              (natDigits a.bytes ++ '\n' :: ' ' :: ' ' :: rbrace :: rest))))) =
        some ((jsonKeyStores.data, Json.num a.stores) ::
          [(jsonKeyBytes.data, Json.num a.bytes)], rest) := by
      rw [parseMembers_nlsp (f + 2)]
      exact m4
    exact parseMembers_more (f + 3) jsonKeyLoads (by decide) _ _ _ _ _ _ hv h3 hrec
  have m2 : parseMembers (f + 5)
      ('"' :: (jsonKeyMangled.data ++ '"' :: ':' :: ' ' :: '"' ::
        (a.mangledName.data ++ '"' :: ',' :: '\n' :: ' ' :: ' ' :: ' ' :: ' ' :: '"' ::
          (jsonKeyLoads.data ++ '"' :: ':' :: ' ' ::
            (natDigits a.loads ++ ',' :: '\n' :: ' ' :: ' ' :: ' ' :: ' ' :: '"' ::
              (jsonKeyStores.data ++ '"' :: ':' :: ' ' ::
                (natDigits a.stores ++ ',' :: '\n' :: ' ' :: ' ' :: ' ' :: ' ' :: '"' ::
                  (jsonKeyBytes.data ++ '"' :: ':' :: ' ' ::
                    (natDigits a.bytes ++ '\n' :: ' ' :: ' ' :: rbrace :: rest))))))))) =
      some ((jsonKeyMangled.data, Json.str a.mangledName.data) ::
        (jsonKeyLoads.data, Json.num a.loads) ::
        (jsonKeyStores.data, Json.num a.stores) ::
        [(jsonKeyBytes.data, Json.num a.bytes)], rest) := by
    have hv : parseValue (f + 4)
        (' ' :: '"' :: (a.mangledName.data ++
          '"' :: ',' :: '\n' :: ' ' :: ' ' :: ' ' :: ' ' :: '"' ::
          (jsonKeyLoads.data ++ '"' :: ':' :: ' ' ::
            (natDigits a.loads ++ ',' :: '\n' :: ' ' :: ' ' :: ' ' :: ' ' :: '"' ::
              (jsonKeyStores.data ++ '"' :: ':' :: ' ' ::
                (natDigits a.stores ++ ',' :: '\n' :: ' ' :: ' ' :: ' ' :: ' ' :: '"' ::
                  (jsonKeyBytes.data ++ '"' :: ':' :: ' ' ::
                    (natDigits a.bytes ++ '\n' :: ' ' :: ' ' :: rbrace :: rest)))))))) =
        some (Json.str a.mangledName.data,
          ',' :: '\n' :: ' ' :: ' ' :: ' ' :: ' ' :: '"' ::
          (jsonKeyLoads.data ++ '"' :: ':' :: ' ' ::
            (natDigits a.loads ++ ',' :: '\n' :: ' ' :: ' ' :: ' ' :: ' ' :: '"' ::
              (jsonKeyStores.data ++ '"' :: ':' :: ' ' ::
                (natDigits a.stores ++ ',' :: '\n' :: ' ' :: ' ' :: ' ' :: ' ' :: '"' ::
                  (jsonKeyBytes.data ++ '"' :: ':' :: ' ' ::
                    (natDigits a.bytes ++ '\n' :: ' ' :: ' ' :: rbrace :: rest))))))) := by
      rw [parseValue_sp (f + 3)]
      exact parseValue_str (f + 3) a.mangledName.data hm _
    have h3 : skipWs (',' :: '\n' :: ' ' :: ' ' :: ' ' :: ' ' :: '"' ::
        (jsonKeyLoads.data ++ '"' :: ':' :: ' ' ::
          (natDigits a.loads ++ ',' :: '\n' :: ' ' :: ' ' :: ' ' :: ' ' :: '"' ::
            (jsonKeyStores.data ++ '"' :: ':' :: ' ' ::
              (natDigits a.stores ++ ',' :: '\n' :: ' ' :: ' ' :: ' ' :: ' ' :: '"' ::
                (jsonKeyBytes.data ++ '"' :: ':' :: ' ' ::
                  (natDigits a.bytes ++ '\n' :: ' ' :: ' ' :: rbrace :: rest))))))) =
        ',' :: '\n' :: ' ' :: ' ' :: ' ' :: ' ' :: '"' ::
          (jsonKeyLoads.data ++ '"' :: ':' :: ' ' ::
            (natDigits a.loads ++ ',' :: '\n' :: ' ' :: ' ' :: ' ' :: ' ' :: '"' ::
              (jsonKeyStores.data ++ '"' :: ':' :: ' ' ::
                (natDigits a.stores ++ ',' :: '\n' :: ' ' :: ' ' :: ' ' :: ' ' :: '"' ::
                  (jsonKeyBytes.data ++ '"' :: ':' :: ' ' ::
                    (natDigits a.bytes ++ '\n' :: ' ' :: ' ' :: rbrace :: rest)))))) :=
      skipWs_cons_not (by decide) _
    have hrec : parseMembers (f + 4) ('\n' :: ' ' :: ' ' :: ' ' :: ' ' :: '"' ::
        (jsonKeyLoads.data ++ '"' :: ':' :: ' ' ::
          (natDigits a.loads ++ ',' :: '\n' :: ' ' :: ' ' :: ' ' :: ' ' :: '"' ::
            (jsonKeyStores.data ++ '"' :: ':' :: ' ' ::
              (natDigits a.stores ++ ',' :: '\n' :: ' ' :: ' ' :: ' ' :: ' ' :: '"' ::
                (jsonKeyBytes.data ++ '"' :: ':' :: ' ' ::
                  (natDigits a.bytes ++ '\n' :: ' ' :: ' ' :: rbrace :: rest))))))) =
        some ((jsonKeyLoads.data, Json.num a.loads) ::
          (jsonKeyStores.data, Json.num a.stores) ::
          [(jsonKeyBytes.data, Json.num a.bytes)], rest) := by
      rw [parseMembers_nlsp (f + 3)]
      exact m3
    exact parseMembers_more (f + 4) jsonKeyMangled (by decide) _ _ _ _ _ _ hv h3 hrec
  have m1 : parseMembers (f + 6)
      ('"' :: (jsonKeyDemangled.data ++ '"' :: ':' :: ' ' :: '"' ::
        (a.demangledName.data ++ '"' :: ',' :: '\n' :: ' ' :: ' ' :: ' ' :: ' ' :: '"' ::
          (jsonKeyMangled.data ++ '"' :: ':' :: ' ' :: '"' ::
            (a.mangledName.data ++ '"' :: ',' :: '\n' :: ' ' :: ' ' :: ' ' :: ' ' :: '"' ::
              (jsonKeyLoads.data ++ '"' :: ':' :: ' ' ::
                (natDigits a.loads ++ ',' :: '\n' :: ' ' :: ' ' :: ' ' :: ' ' :: '"' ::
                  (jsonKeyStores.data ++ '"' :: ':' :: ' ' ::
                    (natDigits a.stores ++ ',' :: '\n' :: ' ' :: ' ' :: ' ' :: ' ' :: '"' ::
                      (jsonKeyBytes.data ++ '"' :: ':' :: ' ' ::
                        (natDigits a.bytes ++ '\n' :: ' ' :: ' ' :: rbrace :: rest))))))))))) =
      some ((jsonKeyDemangled.data, Json.str a.demangledName.data) ::
        (jsonKeyMangled.data, Json.str a.mangledName.data) ::
        (jsonKeyLoads.data, Json.num a.loads) ::
        (jsonKeyStores.data, Json.num a.stores) ::
        [(jsonKeyBytes.data, Json.num a.bytes)], rest) := by
    have hv : parseValue (f + 5)
        (' ' :: '"' :: (a.demangledName.data ++
          '"' :: ',' :: '\n' :: ' ' :: ' ' :: ' ' :: ' ' :: '"' ::
          (jsonKeyMangled.data ++ '"' :: ':' :: ' ' :: '"' ::
            (a.mangledName.data ++ '"' :: ',' :: '\n' :: ' ' :: ' ' :: ' ' :: ' ' :: '"' ::
              (jsonKeyLoads.data ++ '"' :: ':' :: ' ' ::
                (natDigits a.loads ++ ',' :: '\n' :: ' ' :: ' ' :: ' ' :: ' ' :: '"' ::
                  (jsonKeyStores.data ++ '"' :: ':' :: ' ' ::
                    (natDigits a.stores ++ ',' :: '\n' :: ' ' :: ' ' :: ' ' :: ' ' :: '"' ::
                      (jsonKeyBytes.data ++ '"' :: ':' :: ' ' ::
                        (natDigits a.bytes ++ '\n' :: ' ' :: ' ' :: rbrace :: rest)))))))))) =
        some (Json.str a.demangledName.data,
          ',' :: '\n' :: ' ' :: ' ' :: ' ' :: ' ' :: '"' ::
          (jsonKeyMangled.data ++ '"' :: ':' :: ' ' :: '"' ::
            (a.mangledName.data ++ '"' :: ',' :: '\n' :: ' ' :: ' ' :: ' ' :: ' ' :: '"' ::
              (jsonKeyLoads.data ++ '"' :: ':' :: ' ' ::
                (natDigits a.loads ++ ',' :: '\n' :: ' ' :: ' ' :: ' ' :: ' ' :: '"' ::
                  (jsonKeyStores.data ++ '"' :: ':' :: ' ' ::
                    (natDigits a.stores ++ ',' :: '\n' :: ' ' :: ' ' :: ' ' :: ' ' :: '"' ::
                      (jsonKeyBytes.data ++ '"' :: ':' :: ' ' ::
                        (natDigits a.bytes ++ '\n' :: ' ' :: ' ' :: rbrace :: rest))))))))) := by
      rw [parseValue_sp (f + 4)]
      exact parseValue_str (f + 4) a.demangledName.data hd _
    have h3 : skipWs (',' :: '\n' :: ' ' :: ' ' :: ' ' :: ' ' :: '"' ::
        (jsonKeyMangled.data ++ '"' :: ':' :: ' ' :: '"' ::
          (a.mangledName.data ++ '"' :: ',' :: '\n' :: ' ' :: ' ' :: ' ' :: ' ' :: '"' ::
            (jsonKeyLoads.data ++ '"' :: ':' :: ' ' ::
              (natDigits a.loads ++ ',' :: '\n' :: ' ' :: ' ' :: ' ' :: ' ' :: '"' ::
                (jsonKeyStores.data ++ '"' :: ':' :: ' ' ::
                  (natDigits a.stores ++ ',' :: '\n' :: ' ' :: ' ' :: ' ' :: ' ' :: '"' ::
                    (jsonKeyBytes.data ++ '"' :: ':' :: ' ' ::
                      (natDigits a.bytes ++ '\n' :: ' ' :: ' ' :: rbrace :: rest))))))))) =
        ',' :: '\n' :: ' ' :: ' ' :: ' ' :: ' ' :: '"' ::
          (jsonKeyMangled.data ++ '"' :: ':' :: ' ' :: '"' ::
            (a.mangledName.data ++ '"' :: ',' :: '\n' :: ' ' :: ' ' :: ' ' :: ' ' :: '"' ::
              (jsonKeyLoads.data ++ '"' :: ':' :: ' ' ::
                (natDigits a.loads ++ ',' :: '\n' :: ' ' :: ' ' :: ' ' :: ' ' :: '"' ::
                  (jsonKeyStores.data ++ '"' :: ':' :: ' ' ::
                    (natDigits a.stores ++ ',' :: '\n' :: ' ' :: ' ' :: ' ' :: ' ' :: '"' ::
                      (jsonKeyBytes.data ++ '"' :: ':' :: ' ' ::
                        (natDigits a.bytes ++ '\n' :: ' ' :: ' ' :: rbrace :: rest)))))))) :=
      skipWs_cons_not (by decide) _
    have hrec : parseMembers (f + 5) ('\n' :: ' ' :: ' ' :: ' ' :: ' ' :: '"' ::
        (jsonKeyMangled.data ++ '"' :: ':' :: ' ' :: '"' ::
          (a.mangledName.data ++ '"' :: ',' :: '\n' :: ' ' :: ' ' :: ' ' :: ' ' :: '"' ::
            (jsonKeyLoads.data ++ '"' :: ':' :: ' ' ::
              (natDigits a.loads ++ ',' :: '\n' :: ' ' :: ' ' :: ' ' :: ' ' :: '"' ::
                (jsonKeyStores.data ++ '"' :: ':' :: ' ' ::
                  (natDigits a.stores ++ ',' :: '\n' :: ' ' :: ' ' :: ' ' :: ' ' :: '"' ::
                    (jsonKeyBytes.data ++ '"' :: ':' :: ' ' ::
                      (natDigits a.bytes ++ '\n' :: ' ' :: ' ' :: rbrace :: rest))))))))) =
        some ((jsonKeyMangled.data, Json.str a.mangledName.data) ::
          (jsonKeyLoads.data, Json.num a.loads) ::
          (jsonKeyStores.data, Json.num a.stores) ::
          [(jsonKeyBytes.data, Json.num a.bytes)], rest) := by
      rw [parseMembers_nlsp (f + 4)]
      exact m2
    exact parseMembers_more (f + 5) jsonKeyDemangled (by decide) _ _ _ _ _ _ hv h3 hrec
  have hshape : jsonRecordData a ++ rest =
      ' ' :: ' ' :: lbrace :: '\n' :: ' ' :: ' ' :: ' ' :: ' ' :: '"' ::
        (jsonKeyDemangled.data ++ '"' :: ':' :: ' ' :: '"' ::
          (a.demangledName.data ++ '"' :: ',' :: '\n' :: ' ' :: ' ' :: ' ' :: ' ' :: '"' ::
            (jsonKeyMangled.data ++ '"' :: ':' :: ' ' :: '"' ::
              (a.mangledName.data ++ '"' :: ',' :: '\n' :: ' ' :: ' ' :: ' ' :: ' ' :: '"' ::
                (jsonKeyLoads.data ++ '"' :: ':' :: ' ' ::
                  (natDigits a.loads ++ ',' :: '\n' :: ' ' :: ' ' :: ' ' :: ' ' :: '"' ::
                    (jsonKeyStores.data ++ '"' :: ':' :: ' ' ::
                      (natDigits a.stores ++ ',' :: '\n' :: ' ' :: ' ' :: ' ' :: ' ' :: '"' ::
                        (jsonKeyBytes.data ++ '"' :: ':' :: ' ' ::
                          (natDigits a.bytes ++ '\n' :: ' ' :: ' ' :: rbrace :: rest)))))))))) := by
    simp only [jsonRecordData, lbr, keyPart, strVal, sepNl, ending, q,
      List.cons_append, List.nil_append, List.append_assoc]
  rw [hshape]
  have h7 : f + 7 = (f + 6) + 1 := rfl
  rw [h7]
  simp only [parseValue]
  rw [skipWs_cons_ws (by decide), skipWs_cons_ws (by decide),
    skipWs_cons_not (by decide)]
  dsimp only
  rw [if_neg (show lbrace ≠ '"' by decide), if_neg (show lbrace ≠ '[' by decide),
    if_pos rfl]
  rw [skipWs_cons_ws (by decide), skipWs_cons_ws (by decide),
    skipWs_cons_ws (by decide), skipWs_cons_ws (by decide),
    skipWs_cons_ws (by decide), skipWs_cons_not (by decide)]
  dsimp only
  rw [if_neg (show ('"' : Char) ≠ rbrace by decide)]
  rw [m1]
  rfl

lemma parseItems_skipWs (f : Nat) (cs : List Char) :
    parseItems (f + 2) (skipWs cs) = parseItems (f + 2) cs := by
  rw [show f + 2 = (f + 1) + 1 from rfl]
  simp only [parseItems]
  rw [parseValue_skipWs f]

lemma parseItems_records :
    ∀ (recs : List FunctionAnalysis), recs ≠ [] →
      (∀ a ∈ recs, PlainL a.demangledName.data ∧ PlainL a.mangledName.data) →
      ∀ (f : Nat), 8 * recs.length ≤ f → ∀ (rest : List Char),
        parseItems f ('\n' :: (jsonBody recs ++ '\n' :: ']' :: rest)) =
          some (recs.map recordJson, rest) := by
  intro recs
  induction recs with
  | nil => intro h; exact absurd rfl h
  | cons a t ih =>
    intro _ hp f hf rest
    obtain ⟨g, rfl⟩ : ∃ g, f = g + 1 := ⟨f - 1, by simp at hf; omega⟩
    cases t with
    | nil =>
      simp only [jsonBody, jsonTail, List.append_nil]
      simp only [parseItems]
      obtain ⟨x, rfl⟩ : ∃ x, g = x + 7 := ⟨g - 7, by simp at hf; omega⟩
      rw [show x + 7 = (x + 6) + 1 from rfl, parseValue_nl (x + 6),
        show (x + 6) + 1 = x + 7 from rfl,
        parseValue_record x a ('\n' :: ']' :: rest) (hp a (by simp)).1
          (hp a (by simp)).2]
      dsimp only
      rw [skipWs_cons_ws (by decide), skipWs_cons_not (by decide)]
      dsimp only
      rw [if_neg (show (']' : Char) ≠ ',' by decide), if_pos rfl]
      rfl
    | cons b t' =>
      have hsh : jsonBody (a :: b :: t') ++ '\n' :: ']' :: rest =
          jsonRecordData a ++
            (',' :: '\n' :: (jsonBody (b :: t') ++ '\n' :: ']' :: rest)) := by
        simp [jsonBody, jsonTail, List.append_assoc]
      rw [hsh]
      simp only [parseItems]
      obtain ⟨x, rfl⟩ : ∃ x, g = x + 7 := ⟨g - 7, by simp at hf; omega⟩
      rw [show x + 7 = (x + 6) + 1 from rfl, parseValue_nl (x + 6),
        show (x + 6) + 1 = x + 7 from rfl,
        parseValue_record x a _ (hp a (by simp)).1 (hp a (by simp)).2]
      dsimp only
      rw [skipWs_cons_not (by decide)]
      dsimp only
      rw [if_pos rfl]
      have hplain : ∀ c ∈ b :: t',
          PlainL c.demangledName.data ∧ PlainL c.mangledName.data :=
        fun c hc => hp c (List.mem_cons_of_mem a hc)
      have hbound : 8 * (b :: t').length ≤ x + 7 := by
        simp only [List.length_cons] at hf ⊢
        omega
      rw [ih (by simp) hplain (x + 7) hbound rest]
      rfl

lemma jsonRecordData_len_pos (a : FunctionAnalysis) :
    1 ≤ (jsonRecordData a).length := by
  obtain ⟨W, hW⟩ : ∃ W, jsonRecordData a = ' ' :: W := ⟨_, rfl⟩
  rw [hW]
  simp

lemma jsonTail_len : ∀ recs : List FunctionAnalysis,
    recs.length ≤ (jsonTail recs).length := by
  intro recs
  induction recs with
  | nil => simp [jsonTail]
  | cons a t ih =>
    simp only [jsonTail, List.length_cons, List.length_append]
    omega

lemma jsonBody_len : ∀ recs : List FunctionAnalysis,
    recs.length ≤ (jsonBody recs).length := by
  intro recs
  cases recs with
  | nil => simp [jsonBody]
  | cons a t =>
    have h1 := jsonRecordData_len_pos a
    have h2 := jsonTail_len t
    simp only [jsonBody, List.length_cons, List.length_append]
    omega

lemma jsonBody_joinSep : ∀ recs : List FunctionAnalysis,
    jsonBody recs = joinSep [',', '\n'] (recs.map jsonRecordData) := by
  intro recs
  induction recs with
  | nil => rfl
  | cons a t ih =>
    cases t with
    | nil => simp [jsonBody, jsonTail, joinSep]
    | cons b t' =>
      simp only [jsonBody, jsonTail, List.map_cons, joinSep] at ih ⊢
      rw [← ih]
      simp [List.append_assoc]

lemma parseJson_artifact (recs : List FunctionAnalysis)
    (h : ∀ a ∈ recs, PlainL a.demangledName.data ∧ PlainL a.mangledName.data) :
    parseJson ('[' :: '\n' :: (jsonBody recs ++ ['\n', ']'])) =
      some (Json.arr (recs.map recordJson)) := by
  cases recs with
  | nil => rfl
  | cons a t =>
    have hplen : (a :: t).length ≤ (jsonBody (a :: t)).length := jsonBody_len _
    simp only [parseJson]
    obtain ⟨F, hF1, hF2⟩ :
        ∃ F, 8 * (('[' :: '\n' :: (jsonBody (a :: t) ++ ['\n', ']'])).length) + 16 =
          F + 2 ∧ 8 * (a :: t).length + 2 ≤ F := by
      refine ⟨8 * (('[' :: '\n' :: (jsonBody (a :: t) ++ ['\n', ']'])).length) + 14,
        by omega, ?_⟩
      have hlen : ('[' :: '\n' :: (jsonBody (a :: t) ++ ['\n', ']'])).length =
          (jsonBody (a :: t)).length + 4 := by
        simp
      rw [hlen]
      omega
    rw [hF1, show F + 2 = (F + 1) + 1 from rfl]
    simp only [parseValue]
    rw [skipWs_cons_not (by decide)]
    dsimp only
    rw [if_neg (show ('[' : Char) ≠ '"' by decide), if_pos rfl]
    obtain ⟨W, hW⟩ : ∃ W, jsonRecordData a = ' ' :: ' ' :: lbrace :: '\n' :: W :=
      ⟨_, rfl⟩
    have hsh : '\n' :: (jsonBody (a :: t) ++ ['\n', ']']) =
        '\n' :: ' ' :: ' ' :: lbrace :: '\n' :: ((W ++ jsonTail t) ++ ['\n', ']']) := by
      simp only [jsonBody]
      rw [hW]
      simp [List.append_assoc]
    rw [hsh, skipWs_cons_ws (by decide), skipWs_cons_ws (by decide),
      skipWs_cons_ws (by decide), skipWs_cons_not (by decide)]
    dsimp only
    rw [if_neg (show lbrace ≠ ']' by decide)]
    have hback : lbrace :: '\n' :: ((W ++ jsonTail t) ++ ['\n', ']']) =
        skipWs ('\n' :: (jsonBody (a :: t) ++ ['\n', ']'])) := by
      rw [hsh, skipWs_cons_ws (by decide), skipWs_cons_ws (by decide),
        skipWs_cons_ws (by decide), skipWs_cons_not (by decide)]
    rw [hback]
    obtain ⟨G, rfl⟩ : ∃ G, F = G + 1 := ⟨F - 1, by omega⟩
    rw [show G + 1 + 1 = G + 2 from rfl, parseItems_skipWs G,
      parseItems_records (a :: t) (by simp) h (G + 2)
        (by simp at hF2 ⊢; omega) []]
    rfl

/-- C4 (amended): for every run analyzing N functions (N ≥ 0) whose
demangled and mangled name strings contain neither a double quote, nor a
backslash, nor control characters (the writer copies names into the JSON
text without any escaping), the structured-record artifact is a
syntactically valid JSON array of exactly N record objects, each with the
five required fields, with a single comma between consecutive records and
none after the last. For arbitrary name strings the claim fails (see the
counterexample). -/
theorem C4_json_wellformed (dm : String → String) (env : Option String)
    (M : Module) (csv0 : CSVState)
    (h : ∀ a ∈ analyzedRecs dm env M,
      PlainL a.demangledName.data ∧ PlainL a.mangledName.data) :
    (run dm env M csv0).json =
      '[' :: '\n' ::
        (joinSep [',', '\n'] ((analyzedRecs dm env M).map jsonRecordData) ++
          ['\n', ']']) ∧
    parseJson ((run dm env M csv0).json) =
      some (Json.arr ((analyzedRecs dm env M).map recordJson)) ∧
    ((analyzedRecs dm env M).map recordJson).length =
      (analyzedRecs dm env M).length ∧
    (∀ o ∈ (analyzedRecs dm env M).map recordJson,
      objKeys o = [jsonKeyDemangled.data, jsonKeyMangled.data,
        jsonKeyLoads.data, jsonKeyStores.data, jsonKeyBytes.data]) := by
  have hjson : (run dm env M csv0).json =
      '[' :: '\n' :: (jsonBody (analyzedRecs dm env M) ++ ['\n', ']']) := by
    simp only [run_eq]
  refine ⟨?_, ?_, by simp, ?_⟩
  · rw [hjson, jsonBody_joinSep]
  · rw [hjson]
    exact parseJson_artifact _ h
  · intro o ho
    obtain ⟨a, -, rfl⟩ := List.mem_map.mp ho
    rfl

/-- Witness for C4 (amended) at a concrete input: a one-function module
with plain names. -/
theorem C4_json_wellformed_witness :
    (run (fun s => s) (some "/proj") exUserModule csvInit).json =
      '[' :: '\n' ::
        (joinSep [',', '\n']
          ((analyzedRecs (fun s => s) (some "/proj") exUserModule).map
            jsonRecordData) ++ ['\n', ']']) ∧
    parseJson ((run (fun s => s) (some "/proj") exUserModule csvInit).json) =
      some (Json.arr
        ((analyzedRecs (fun s => s) (some "/proj") exUserModule).map recordJson)) ∧
    ((analyzedRecs (fun s => s) (some "/proj") exUserModule).map recordJson).length =
      (analyzedRecs (fun s => s) (some "/proj") exUserModule).length ∧
    (∀ o ∈ (analyzedRecs (fun s => s) (some "/proj") exUserModule).map recordJson,
      objKeys o = [jsonKeyDemangled.data, jsonKeyMangled.data,
        jsonKeyLoads.data, jsonKeyStores.data, jsonKeyBytes.data]) :=
  C4_json_wellformed (fun s => s) (some "/proj") exUserModule csvInit (by decide)

/-- C4 counterexample: with a mangled name containing a double quote, the
emitted structured-record artifact is not syntactically valid JSON (the
name is copied into the string literal unescaped), so the claim fails for
arbitrary name strings. -/
theorem C4_counterexample :
    (parseJson ((run (fun s => s) (some "/proj") quoteModule csvInit).json)).isSome
      = false := by
  decide

end Memcheck
